import Mathlib

/-!
# EmsCart: host-side driver of the EMS cartridge programmer

A shallow embedding of `src/EmsCart.cpp`.

* The object state is the pair of members `m_deviceHandle`, `m_interfaceClaimed`.
* Every libusb call, every Qt signal emission and every `qWarning` line is appended to an
  event log that is threaded through the member functions.
* libusb is an external collaborator: its replies are given by a record of functions of the
  log of everything that happened before the call, and of the call's arguments. Any sequence
  of replies can be obtained that way.
* `EmsCart.h` is not part of the sources at hand; the constants and enumerators it declares
  are parameters (`EmsCartH`).
* Bytes are natural numbers below 256, a `QByteArray` is a list of bytes. `uint8_t` and
  `uint32_t` values are natural numbers reduced modulo `2^8` and `2^32`; an `int` is an
  integer, and a `uint32_t` passed where an `int` is expected wraps around (`toInt`).
-/

set_option autoImplicit false

/-! ## Qt and host primitives -/

/-- Byte order of the host the driver is compiled for. -/
inductive ByteOrder where
  | LittleEndian
  | BigEndian
  deriving DecidableEq, Repr

/-- The host: its byte order and the contents of storage that was allocated but not yet
written (`QByteArray::resize` does not initialise the bytes it adds). -/
structure Host where
  byteOrder : ByteOrder
  uninitialized : Nat → Nat

/-- Conversion to `uint8_t`. -/
def u8 (x : Nat) : Nat := x % 256

/-- Conversion to `uint32_t`. -/
def u32 (x : Nat) : Nat := x % 4294967296

/-- Conversion of a `uint32_t` value to `int` (32 bits, two's complement): values from
`2^31` on become negative. -/
def toInt (x : Nat) : Int :=
  if x % 4294967296 < 2147483648 then ((x % 4294967296 : Nat) : Int)
  else ((x % 4294967296 : Nat) : Int) - 4294967296

/-- The four bytes of a `uint32_t` object in memory order, as seen through
`(const char *)&x`. -/
def rawBytes32 (host : Host) (x : Nat) : List Nat :=
  match host.byteOrder with
  | .LittleEndian => [x % 256, x / 256 % 256, x / 65536 % 256, x / 16777216 % 256]
  | .BigEndian => [x / 16777216 % 256, x / 65536 % 256, x / 256 % 256, x % 256]

/-- Byte swap of a 32-bit value (`qbswap`). -/
def qbswap32 (x : Nat) : Nat :=
  (x % 256) * 16777216 + (x / 256 % 256) * 65536 + (x / 65536 % 256) * 256
    + (x / 16777216 % 256)

/-- `qToBigEndian<quint32>`: swaps on a little-endian host, identity on a big-endian one. -/
def qToBigEndian (host : Host) (x : Nat) : Nat :=
  match host.byteOrder with
  | .LittleEndian => qbswap32 x
  | .BigEndian => x

/-- `QByteArray::resize(int size)`: a negative size is taken as 0; the array is truncated,
or extended with uninitialised bytes. -/
def QByteArray.resize (host : Host) (b : List Nat) (size : Int) : List Nat :=
  let size : Nat := if size < 0 then 0 else size.toNat
  if size ≤ b.length then b.take size
  else b ++ (List.range (size - b.length)).map host.uninitialized

/-- A `QDataStream` opened on a byte array: the array and the position of the device. -/
structure QDataStream where
  buffer : List Nat
  pos : Nat

/-- `QDataStream::writeRawData` on a `QBuffer`: the bytes replace what is stored from the
current position on (extending the array when they run past its end) and the position
advances by their number. -/
def QDataStream.writeRawData (st : QDataStream) (bytes : List Nat) : QDataStream :=
  { buffer := st.buffer.take st.pos ++ bytes ++ st.buffer.drop (st.pos + bytes.length)
    pos := st.pos + bytes.length }

/-! ## Command frame -/

/-- `EmsCart::createCommandBuffer` (lines 99-110). -/
def createCommandBuffer (host : Host) (command offset count : Nat) : List Nat :=
  let command := u8 command
  let offset := u32 offset
  let count := u32 count
  let commandBuffer := QByteArray.resize host [] (1 + 4 + 4)
  let commandStream : QDataStream := { buffer := commandBuffer, pos := 0 }
  let commandStream := commandStream.writeRawData [command]
  let bigEndianOffset := qToBigEndian host offset
  let commandStream := commandStream.writeRawData (rawBytes32 host bigEndianOffset)
  let bigEndianCount := qToBigEndian host count
  let commandStream := commandStream.writeRawData (rawBytes32 host bigEndianCount)
  commandStream.buffer

/-- The four bytes of a 32-bit value, most significant byte first. -/
def bigEndianBytes (x : Nat) : List Nat :=
  [x / 16777216 % 256, x / 65536 % 256, x / 256 % 256, x % 256]

/-- Decoder of command frames, written from the frame layout of the specification: a frame
has exactly nine bytes, byte 0 is the opcode, bytes 1..4 and bytes 5..8 are 32-bit values
with the most significant byte first. -/
def decodeCommandBuffer : List Nat → Option (Nat × Nat × Nat)
  | [op, o3, o2, o1, o0, c3, c2, c1, c0] =>
      some (op, o3 * 16777216 + o2 * 65536 + o1 * 256 + o0,
        c3 * 16777216 + c2 * 65536 + c1 * 256 + c0)
  | _ => none

/-! ## Declarations of `EmsCart.h` and of libusb -/

/-- The constants and enumerators that `EmsCart.cpp` takes from `EmsCart.h`: the device
identity and the endpoint addresses of `EmsConstants`, and the four command opcodes. -/
structure EmsCartH where
  UsbVID : Nat
  UsbPID : Nat
  SendEndpoint : Nat
  ReceiveEndpoint : Nat
  ReadROMCommand : Nat
  WriteROMCommand : Nat
  ReadSRAMCommand : Nat
  WriteSRAMCommand : Nat

/-- A value of the enumeration type `EmsMemory`: one of its two enumerators, or any other
value of the underlying integer type, which matches neither `case` label. -/
inductive EmsMemory where
  | ROM
  | SRAM
  | other (value : Int)
  deriving DecidableEq, Repr

/-- A `libusb_device *` of an enumerated list, together with what
`libusb_get_device_descriptor` yields for it: the result code and, when that is zero, the
vendor and product identifiers of the descriptor. -/
structure libusb_device where
  id : Nat
  descriptorResult : Int
  idVendor : Nat
  idProduct : Nat
  deriving DecidableEq, Repr

/-- `LIBUSB_ERROR_ACCESS` of `libusb.h`. -/
def LIBUSB_ERROR_ACCESS : Int := -3

/-- `LIBUSB_ERROR_NOT_SUPPORTED` of `libusb.h`. -/
def LIBUSB_ERROR_NOT_SUPPORTED : Int := -12

/-- The texts passed to the `error` signal. -/
inductive ErrorMessage where
  | initFailed
  | deviceAccess
  | deviceNotSupported
  deriving DecidableEq, Repr

/-- The lines written through `qWarning()`, with the code they print. -/
inductive Warning where
  | claimInterfaceError (result : Int)
  | openFailed (result : Int)
  | descriptorFailed (result : Int)
  | deviceNotFound
  | deviceListFailed (numDevices : Int)
  | fromInvalid
  | toInvalid
  deriving DecidableEq, Repr

/-- What the driver does that is visible from outside: calls of libusb (with their
arguments; a device handle is `none` for `nullptr`), emissions of the two signals, and
warnings. -/
inductive Event where
  | libusb_init
  | libusb_exit
  | libusb_release_interface (handle : Option Nat) (interface_number : Int)
  | libusb_claim_interface (handle : Option Nat) (interface_number : Int)
  | libusb_close (handle : Option Nat)
  | libusb_get_device_list
  | libusb_get_device_descriptor (dev : libusb_device)
  | libusb_open (dev : libusb_device)
  | libusb_free_device_list
  | libusb_bulk_transfer (handle : Option Nat) (endpoint : Nat) (data : List Nat)
      (length : Int)
  | error (message : ErrorMessage)
  | readyChanged (ready : Bool)
  | qWarning (line : Warning)
  deriving DecidableEq, Repr

/-- Result of `libusb_get_device_list`: a negative count, or the list of devices, whose
length is the count returned. -/
inductive DeviceList where
  | failed (numDevices : Int)
  | devices (deviceList : List libusb_device)

/-- Result of `libusb_bulk_transfer`: the code returned and the bytes that the device
delivers on an inbound transfer (none for an outbound transfer). The `transferred` output is
not represented, the driver never reads it. -/
structure BulkReply where
  result : Int
  data : List Nat

/-- The behaviour of libusb and of the bus behind it. Each reply is a function of the log
of all that happened before the call and of the arguments of the call. Functions whose
result the driver does not look at have no entry. `libusb_open` yields the code and the
handle it stores on success. -/
structure Libusb where
  libusb_init : List Event → Int
  libusb_claim_interface : List Event → Option Nat → Int → Int
  libusb_get_device_list : List Event → DeviceList
  libusb_open : List Event → libusb_device → Int × Option Nat
  libusb_bulk_transfer : List Event → Option Nat → Nat → List Nat → Int → BulkReply

/-- Outcome of one `libusb_bulk_transfer` call as the caller sees it. -/
structure Transfer where
  result : Int
  buffer : List Nat
  log : List Event

/-- One call of `libusb_bulk_transfer(handle, endpoint, buffer, length, &transferred, 0)`,
`length` being an `int`: the call is logged, and the bytes delivered are stored at the start
of the buffer, as many as `length` asks for and the storage of the buffer holds. The buffer
keeps its size. -/
def bulkTransfer (usb : Libusb) (log : List Event) (handle : Option Nat) (endpoint : Nat)
    (buffer : List Nat) (length : Int) : Transfer :=
  let reply := usb.libusb_bulk_transfer log handle endpoint buffer length
  let stored := reply.data.take (min length.toNat buffer.length)
  { result := reply.result
    buffer := stored ++ buffer.drop stored.length
    log := log ++ [Event.libusb_bulk_transfer handle endpoint buffer length] }

/-! ## The driver object -/

/-- The data members of `EmsCart`. -/
structure EmsCart where
  m_deviceHandle : Option Nat
  m_interfaceClaimed : Bool
  deriving DecidableEq, Repr

namespace EmsCart

/-- `EmsCart::ready` (lines 176-179). -/
def ready (s : EmsCart) : Bool :=
  s.m_deviceHandle.isSome && s.m_interfaceClaimed

/-- `EmsCart::EmsCart` (lines 7-17). -/
def new (usb : Libusb) (log : List Event) : EmsCart × List Event :=
  let s : EmsCart := { m_deviceHandle := none, m_interfaceClaimed := false }
  let result := usb.libusb_init log
  let log := log ++ [Event.libusb_init]
  if result < 0 then (s, log ++ [Event.error ErrorMessage.initFailed]) else (s, log)

/-- `EmsCart::~EmsCart` (lines 19-30). -/
def delete (s : EmsCart) (log : List Event) : List Event :=
  let log := if s.m_interfaceClaimed then
      log ++ [Event.libusb_release_interface s.m_deviceHandle 0] else log
  let log := if s.m_deviceHandle.isSome then
      log ++ [Event.libusb_close s.m_deviceHandle] else log
  log ++ [Event.libusb_exit]

/-- The `for` loop of `findDevice` (lines 56-88) from index `i` on, over the devices not
yet visited. It yields the value of `i` when the loop is left, the members and the log. -/
def findDeviceLoop (K : EmsCartH) (usb : Libusb) :
    List libusb_device → Nat → EmsCart → List Event → Nat × EmsCart × List Event
  | [], i, s, log => (i, s, log)
  | dev :: rest, i, s, log =>
    let result := dev.descriptorResult
    let log := log ++ [Event.libusb_get_device_descriptor dev]
    if result = 0 then
      if dev.idVendor = K.UsbVID ∧ dev.idProduct = K.UsbPID then
        let opened := usb.libusb_open log dev
        let result := opened.1
        let log := log ++ [Event.libusb_open dev]
        if result ≠ 0 then
          let log := log ++ [Event.qWarning (Warning.openFailed result)]
          if result = LIBUSB_ERROR_ACCESS then
            (i, s, log ++ [Event.error ErrorMessage.deviceAccess])
          else if result = LIBUSB_ERROR_NOT_SUPPORTED then
            (i, s, log ++ [Event.error ErrorMessage.deviceNotSupported])
          else (i, s, log)
        else
          let s := { s with m_deviceHandle := opened.2 }
          let result := usb.libusb_claim_interface log s.m_deviceHandle 0
          let log := log ++ [Event.libusb_claim_interface s.m_deviceHandle 0]
          if result < 0 then
            (i, s, log ++ [Event.qWarning (Warning.claimInterfaceError result)])
          else
            let s := { s with m_interfaceClaimed := true }
            (i, s, log ++ [Event.readyChanged true])
      else findDeviceLoop K usb rest (i + 1) s log
    else
      findDeviceLoop K usb rest (i + 1) s
        (log ++ [Event.qWarning (Warning.descriptorFailed result)])

/-- The full discovery of `findDevice` (lines 49-96). -/
def discover (K : EmsCartH) (usb : Libusb) (s : EmsCart) (log : List Event) :
    EmsCart × List Event :=
  let listed := usb.libusb_get_device_list log
  let log := log ++ [Event.libusb_get_device_list]
  match listed with
  | DeviceList.devices deviceList =>
    let numDevices := deviceList.length
    let (i, s, log) := findDeviceLoop K usb deviceList 0 s log
    let log := if i = numDevices then log ++ [Event.qWarning Warning.deviceNotFound] else log
    (s, log ++ [Event.libusb_free_device_list])
  | DeviceList.failed numDevices =>
    (s, log ++ [Event.qWarning (Warning.deviceListFailed numDevices)])

/-- `EmsCart::findDevice` (lines 32-97). -/
def findDevice (K : EmsCartH) (usb : Libusb) (s : EmsCart) (log : List Event) :
    EmsCart × List Event :=
  if ready s then
    let log := log ++ [Event.libusb_release_interface s.m_deviceHandle 0]
    let result := usb.libusb_claim_interface log s.m_deviceHandle 0
    let log := log ++ [Event.libusb_claim_interface s.m_deviceHandle 0]
    if result < 0 then
      let log := log ++ [Event.qWarning (Warning.claimInterfaceError result)]
      let s := { s with m_interfaceClaimed := false }
      let log := log ++ [Event.libusb_close s.m_deviceHandle]
      let s := { s with m_deviceHandle := none }
      let log := log ++ [Event.readyChanged false]
      discover K usb s log
    else (s, log)
  else discover K usb s log

/-- The `switch` of `read` (lines 117-127): the value assigned to `uint8_t cmd`, or `none`
when the `default` label is taken. -/
def readCommand (K : EmsCartH) : EmsMemory → Option Nat
  | EmsMemory.ROM => some (u8 K.ReadROMCommand)
  | EmsMemory.SRAM => some (u8 K.ReadSRAMCommand)
  | EmsMemory.other _ => none

/-- The `switch` of `write` (lines 152-162): the value assigned to `uint8_t cmd`, or `none`
when the `default` label is taken. -/
def writeCommand (K : EmsCartH) : EmsMemory → Option Nat
  | EmsMemory.ROM => some (u8 K.WriteROMCommand)
  | EmsMemory.SRAM => some (u8 K.WriteSRAMCommand)
  | EmsMemory.other _ => none

/-- `EmsCart::read` (lines 112-145): the byte array returned and the log. The `uint32_t`
count is converted to `int` where it is passed to `QByteArray::resize` (line 137) and to
`libusb_bulk_transfer` (line 139). -/
def read (K : EmsCartH) (host : Host) (usb : Libusb) (s : EmsCart) (log : List Event)
    (src : EmsMemory) (offset count : Nat) : List Nat × List Event :=
  let offset := u32 offset
  let count := u32 count
  match readCommand K src with
  | none => ([], log ++ [Event.qWarning Warning.fromInvalid])
  | some cmd =>
    let cmdBuffer := createCommandBuffer host cmd offset count
    let sent := bulkTransfer usb log s.m_deviceHandle K.SendEndpoint cmdBuffer
      (cmdBuffer.length : Int)
    if sent.result < 0 then ([], sent.log)
    else
      let outBuffer := QByteArray.resize host [] (toInt count)
      let received := bulkTransfer usb sent.log s.m_deviceHandle K.ReceiveEndpoint
        outBuffer (toInt count)
      if received.result < 0 then ([], received.log)
      else (received.buffer, received.log)

/-- `EmsCart::write` (lines 147-174): the value returned and the log. -/
def write (K : EmsCartH) (host : Host) (usb : Libusb) (s : EmsCart) (log : List Event)
    (dst : EmsMemory) (data : List Nat) (offset count : Nat) : Bool × List Event :=
  let offset := u32 offset
  let count := u32 count
  match writeCommand K dst with
  | none => (false, log ++ [Event.qWarning Warning.toInvalid])
  | some cmd =>
    let outBuffer := createCommandBuffer host cmd offset count
    let outBuffer := outBuffer ++ data
    let sent := bulkTransfer usb log s.m_deviceHandle K.SendEndpoint outBuffer
      (outBuffer.length : Int)
    if sent.result < 0 then (false, sent.log)
    else (true, sent.log)

/-- The fast path of `findDevice` alone (lines 34-47): `none` when `findDevice` returns at
line 45, otherwise the members and the log with which line 49 is reached. -/
def findDeviceFastPath (usb : Libusb) (s : EmsCart) (log : List Event) :
    Option (EmsCart × List Event) :=
  if ready s then
    let log := log ++ [Event.libusb_release_interface s.m_deviceHandle 0]
    let result := usb.libusb_claim_interface log s.m_deviceHandle 0
    let log := log ++ [Event.libusb_claim_interface s.m_deviceHandle 0]
    if result < 0 then
      let log := log ++ [Event.qWarning (Warning.claimInterfaceError result)]
      let s := { s with m_interfaceClaimed := false }
      let log := log ++ [Event.libusb_close s.m_deviceHandle]
      let s := { s with m_deviceHandle := none }
      let log := log ++ [Event.readyChanged false]
      some (s, log)
    else none
  else some (s, log)

end EmsCart

/-- A call of a public member function by the owner of the object. -/
inductive Call where
  | findDevice
  | read (src : EmsMemory) (offset count : Nat)
  | write (dst : EmsMemory) (data : List Nat) (offset count : Nat)
  | ready
  deriving DecidableEq, Repr

namespace EmsCart

/-- The effect of one call on the members and the log. -/
def call (K : EmsCartH) (host : Host) (usb : Libusb) (st : EmsCart × List Event) :
    Call → EmsCart × List Event
  | Call.findDevice => findDevice K usb st.1 st.2
  | Call.read src offset count => (st.1, (read K host usb st.1 st.2 src offset count).2)
  | Call.write dst data offset count =>
      (st.1, (write K host usb st.1 st.2 dst data offset count).2)
  | Call.ready => st

/-- The members and the log after construction of the object followed by a sequence of
calls. -/
def run (K : EmsCartH) (host : Host) (usb : Libusb) (log : List Event)
    (calls : List Call) : EmsCart × List Event :=
  calls.foldl (call K host usb) (new usb log)

end EmsCart

/-! ## Reading the log -/

/-- Whether an event is a call of libusb. -/
def Event.isUsbCall : Event → Bool
  | Event.error _ => false
  | Event.readyChanged _ => false
  | Event.qWarning _ => false
  | _ => true

/-- The libusb calls of a log, in order. -/
def usbCalls (log : List Event) : List Event :=
  log.filter Event.isUsbCall

/-- Whether an event is a call of `libusb_bulk_transfer`. -/
def Event.isBulkTransfer : Event → Bool
  | Event.libusb_bulk_transfer _ _ _ _ => true
  | _ => false

/-- The devices on which `libusb_open` was called, in order. -/
def openedDevices (log : List Event) : List libusb_device :=
  log.filterMap fun e =>
    match e with
    | Event.libusb_open dev => some dev
    | _ => none

/-- The arguments of the calls of `libusb_claim_interface`, in order. -/
def claimCalls (log : List Event) : List (Option Nat × Int) :=
  log.filterMap fun e =>
    match e with
    | Event.libusb_claim_interface handle n => some (handle, n)
    | _ => none

/-- The devices whose descriptor was read, in order. -/
def describedDevices (log : List Event) : List libusb_device :=
  log.filterMap fun e =>
    match e with
    | Event.libusb_get_device_descriptor dev => some dev
    | _ => none

/-- Whether an event is a release or a claim of an interface on a null handle. -/
def Event.onNullHandle : Event → Bool
  | Event.libusb_release_interface none _ => true
  | Event.libusb_claim_interface none _ => true
  | _ => false

/-- The `error` signals that follow a failed `libusb_open` (lines 69-73). -/
def openFailureSignals (result : Int) : List Event :=
  if result = LIBUSB_ERROR_ACCESS then [Event.error ErrorMessage.deviceAccess]
  else if result = LIBUSB_ERROR_NOT_SUPPORTED then [Event.error ErrorMessage.deviceNotSupported]
  else []

/-- The events of the turns of the loop over devices that are passed over: the descriptor
read, and the warning when the read failed. -/
def passedOver : List libusb_device → List Event
  | [] => []
  | dev :: rest =>
    (if dev.descriptorResult = 0 then [Event.libusb_get_device_descriptor dev]
      else [Event.libusb_get_device_descriptor dev,
        Event.qWarning (Warning.descriptorFailed dev.descriptorResult)])
      ++ passedOver rest

/-- The arguments of the emissions of `error`, in order. -/
def errorSignals (log : List Event) : List ErrorMessage :=
  log.filterMap fun e =>
    match e with
    | Event.error message => some message
    | _ => none

/-- The arguments of the emissions of `readyChanged`, in order. -/
def readySignals (log : List Event) : List Bool :=
  log.filterMap fun e =>
    match e with
    | Event.readyChanged b => some b
    | _ => none

/-! ## Concrete instances -/

/-- Sample values for the declarations of the header. -/
def sampleH : EmsCartH :=
  { UsbVID := 0x4670, UsbPID := 0x9394, SendEndpoint := 0x02, ReceiveEndpoint := 0x81
    ReadROMCommand := 0xff, WriteROMCommand := 0x57
    ReadSRAMCommand := 0x6d, WriteSRAMCommand := 0x4d }

/-- A little-endian host whose fresh storage holds the byte `0xAA`. -/
def sampleHost : Host :=
  { byteOrder := ByteOrder.LittleEndian, uninitialized := fun _ => 0xAA }

/-- A device that is not the programmer. -/
def otherDevice : libusb_device :=
  { id := 1, descriptorResult := 0, idVendor := 0x1234, idProduct := 0x5678 }

/-- A device with the identity of `sampleH`. -/
def emsDevice : libusb_device :=
  { id := 2, descriptorResult := 0, idVendor := 0x4670, idProduct := 0x9394 }

/-- A libusb in which every call succeeds: two devices are attached, the second one is the
programmer, opening it gives the handle 7, and an inbound transfer fills the buffer with
the bytes 0, 1, 2, ... -/
def usbAccepting : Libusb :=
  { libusb_init := fun _ => 0
    libusb_claim_interface := fun _ _ _ => 0
    libusb_get_device_list := fun _ => DeviceList.devices [otherDevice, emsDevice]
    libusb_open := fun _ _ => (0, some 7)
    libusb_bulk_transfer := fun _ _ endpoint _ length =>
      { result := 0, data := if endpoint = 0x81 then List.range length.toNat else [] } }

/-- A libusb in which every call that can fail does: claims and transfers return
`LIBUSB_ERROR_IO`, enumeration returns `LIBUSB_ERROR_NO_MEM`, opening is denied. -/
def usbFailing : Libusb :=
  { libusb_init := fun _ => -99
    libusb_claim_interface := fun _ _ _ => -1
    libusb_get_device_list := fun _ => DeviceList.failed (-11)
    libusb_open := fun _ _ => (-3, none)
    libusb_bulk_transfer := fun _ _ _ _ _ => { result := -1, data := [] } }

/-- A libusb on which the programmer is attached alone and its interface can never be
claimed; `libusb_open` gives the handle 7 the first time it is called and is denied
(`LIBUSB_ERROR_ACCESS`) afterwards. -/
def usbStale : Libusb :=
  { libusb_init := fun _ => 0
    libusb_claim_interface := fun _ _ _ => -6
    libusb_get_device_list := fun _ => DeviceList.devices [emsDevice]
    libusb_open := fun log _ => if openedDevices log = [] then (0, some 7) else (-3, none)
    libusb_bulk_transfer := fun _ _ _ _ _ => { result := -1, data := [] } }

/-- A device whose descriptor cannot be read. -/
def unreadableDevice : libusb_device :=
  { id := 3, descriptorResult := -1, idVendor := 0, idProduct := 0 }

/-- A second programmer. -/
def emsDevice2 : libusb_device :=
  { id := 4, descriptorResult := 0, idVendor := 0x4670, idProduct := 0x9394 }

/-- A libusb on which an unreadable device, a foreign device and two programmers are
attached, in that order; opening is denied, everything else succeeds. -/
def usbDenied : Libusb :=
  { libusb_init := fun _ => 0
    libusb_claim_interface := fun _ _ _ => 0
    libusb_get_device_list := fun _ =>
      DeviceList.devices [unreadableDevice, otherDevice, emsDevice, emsDevice2]
    libusb_open := fun _ _ => (-3, none)
    libusb_bulk_transfer := fun _ _ _ _ _ => { result := 0, data := [] } }

/-- A libusb on which the programmer is attached alone and opens with the handle 7, but
its interface cannot be claimed (`LIBUSB_ERROR_BUSY`). -/
def usbBusy : Libusb :=
  { libusb_init := fun _ => 0
    libusb_claim_interface := fun _ _ _ => -6
    libusb_get_device_list := fun _ => DeviceList.devices [emsDevice]
    libusb_open := fun _ _ => (0, some 7)
    libusb_bulk_transfer := fun _ _ _ _ _ => { result := -1, data := [] } }

/-- A libusb on which nothing is attached. -/
def usbEmpty : Libusb :=
  { libusb_init := fun _ => 0
    libusb_claim_interface := fun _ _ _ => 0
    libusb_get_device_list := fun _ => DeviceList.devices []
    libusb_open := fun _ _ => (-4, none)
    libusb_bulk_transfer := fun _ _ _ _ _ => { result := -4, data := [] } }

/-- A libusb on which sending succeeds and receiving fails (`LIBUSB_ERROR_TIMEOUT`). -/
def usbReceiveFails : Libusb :=
  { libusb_init := fun _ => 0
    libusb_claim_interface := fun _ _ _ => 0
    libusb_get_device_list := fun _ => DeviceList.devices [emsDevice]
    libusb_open := fun _ _ => (0, some 7)
    libusb_bulk_transfer := fun _ _ endpoint _ _ =>
      { result := if endpoint = 0x81 then -7 else 0, data := [] } }

/-! ## Lemmas on the command frame -/

theorem rawBytes32_qToBigEndian (host : Host) (x : Nat) :
    rawBytes32 host (qToBigEndian host x) = bigEndianBytes x := by
  unfold rawBytes32 qToBigEndian bigEndianBytes
  cases hb : host.byteOrder with
  | LittleEndian =>
      have key : ∀ a b c d : Nat, a < 256 → b < 256 → c < 256 → d < 256 →
          (a * 16777216 + b * 65536 + c * 256 + d) % 256 = d
          ∧ (a * 16777216 + b * 65536 + c * 256 + d) / 256 % 256 = c
          ∧ (a * 16777216 + b * 65536 + c * 256 + d) / 65536 % 256 = b
          ∧ (a * 16777216 + b * 65536 + c * 256 + d) / 16777216 % 256 = a := by
        intro a b c d ha hb hc hd
        refine ⟨?_, ?_, ?_, ?_⟩ <;> omega
      obtain ⟨h0, h1, h2, h3⟩ := key (x % 256) (x / 256 % 256) (x / 65536 % 256)
        (x / 16777216 % 256) (Nat.mod_lt _ (by decide)) (Nat.mod_lt _ (by decide))
        (Nat.mod_lt _ (by decide)) (Nat.mod_lt _ (by decide))
      simp only [qbswap32, h0, h1, h2, h3]
  | BigEndian => rfl

theorem createCommandBuffer_eq (host : Host) (command offset count : Nat) :
    createCommandBuffer host command offset count
      = u8 command :: (bigEndianBytes (u32 offset) ++ bigEndianBytes (u32 count)) := by
  simp only [createCommandBuffer, rawBytes32_qToBigEndian]
  simp [QDataStream.writeRawData, QByteArray.resize, bigEndianBytes, List.range_succ]

theorem decodeCommandBuffer_createCommandBuffer (host : Host) (opcode offset count : Nat)
    (hop : opcode < 256) (hoff : offset < 4294967296) (hcnt : count < 4294967296) :
    decodeCommandBuffer (createCommandBuffer host opcode offset count)
      = some (opcode, offset, count) := by
  rw [createCommandBuffer_eq]
  simp only [bigEndianBytes, u8, u32, List.cons_append, List.nil_append, decodeCommandBuffer,
    Option.some.injEq, Prod.mk.injEq]
  refine ⟨?_, ?_, ?_⟩ <;> omega

theorem createCommandBuffer_u8 (host : Host) (command offset count : Nat) :
    createCommandBuffer host (u8 command) offset count
      = createCommandBuffer host command offset count := by
  simp [createCommandBuffer_eq, u8]

theorem createCommandBuffer_u32 (host : Host) (command offset count : Nat) :
    createCommandBuffer host command (u32 offset) (u32 count)
      = createCommandBuffer host command offset count := by
  simp [createCommandBuffer_eq, u32]

theorem createCommandBuffer_length (host : Host) (command offset count : Nat) :
    (createCommandBuffer host command offset count).length = 9 := by
  simp [createCommandBuffer_eq, bigEndianBytes]

/-! ## Lemmas on `read` and `write` -/

namespace EmsCart

theorem toInt_u32 (x : Nat) : toInt (u32 x) = toInt x := by
  simp [toInt, u32]

theorem toInt_of_lt (x : Nat) (h : x < 2147483648) : toInt x = (x : Int) := by
  have h1 : x % 4294967296 = x := Nat.mod_eq_of_lt (by omega)
  simp [toInt, h1, h]

theorem toInt_neg_of_ge (x : Nat) (h1 : 2147483648 ≤ x) (h2 : x < 4294967296) :
    toInt x < 0 := by
  have h3 : x % 4294967296 = x := Nat.mod_eq_of_lt h2
  simp only [toInt, h3, not_lt.mpr h1, if_false]
  omega

theorem length_resize_nil (host : Host) (size : Int) :
    (QByteArray.resize host [] size).length = size.toNat := by
  unfold QByteArray.resize
  by_cases hs : size < 0
  · have : size.toNat = 0 := by omega
    simp [hs, this]
  · simp only [hs, if_false, List.length_nil, Nat.le_zero, List.take_nil, List.nil_append,
      Nat.sub_zero]
    split_ifs with h
    · simp [h]
    · simp

theorem write_of_command (K : EmsCartH) (host : Host) (usb : Libusb) (s : EmsCart)
    (log : List Event) (dst : EmsMemory) (data : List Nat) (offset count cmd : Nat)
    (hcmd : writeCommand K dst = some cmd) :
    write K host usb s log dst data offset count
      = (decide (0 ≤ (usb.libusb_bulk_transfer log s.m_deviceHandle K.SendEndpoint
            (createCommandBuffer host cmd offset count ++ data) (9 + data.length)).result),
         log ++ [Event.libusb_bulk_transfer s.m_deviceHandle K.SendEndpoint
            (createCommandBuffer host cmd offset count ++ data) (9 + data.length)]) := by
  have hlen : (((createCommandBuffer host cmd offset count ++ data).length : Nat) : Int)
      = 9 + data.length := by
    rw [List.length_append, createCommandBuffer_length]
    push_cast
    rfl
  simp only [write, hcmd, bulkTransfer, createCommandBuffer_u32, hlen]
  split <;> simp <;> omega

theorem read_of_command (K : EmsCartH) (host : Host) (usb : Libusb) (s : EmsCart)
    (log : List Event) (src : EmsMemory) (offset count cmd : Nat)
    (hcmd : readCommand K src = some cmd) :
    read K host usb s log src offset count
      = let frame := createCommandBuffer host cmd offset count
        let sendCall := Event.libusb_bulk_transfer s.m_deviceHandle K.SendEndpoint frame 9
        let sent := usb.libusb_bulk_transfer log s.m_deviceHandle K.SendEndpoint frame 9
        let outBuffer := QByteArray.resize host [] (toInt count)
        let receiveCall := Event.libusb_bulk_transfer s.m_deviceHandle K.ReceiveEndpoint
          outBuffer (toInt count)
        let received := usb.libusb_bulk_transfer (log ++ [sendCall]) s.m_deviceHandle
          K.ReceiveEndpoint outBuffer (toInt count)
        let stored := received.data.take (min (toInt count).toNat outBuffer.length)
        if sent.result < 0 then ([], log ++ [sendCall])
        else if received.result < 0 then ([], log ++ [sendCall, receiveCall])
        else (stored ++ outBuffer.drop stored.length, log ++ [sendCall, receiveCall]) := by
  have hlen : (((createCommandBuffer host cmd offset count).length : Nat) : Int) = 9 := by
    rw [createCommandBuffer_length]
    rfl
  simp only [read, hcmd, bulkTransfer, createCommandBuffer_u32, toInt_u32, hlen,
    List.append_assoc, List.singleton_append]

end EmsCart

/-! ## The command frame (claims C1, C2) -/

/-- C1: for every 8-bit opcode and all 32-bit offset and count, on either byte order and
whatever the uninitialised storage holds, `createCommandBuffer` returns exactly nine bytes:
byte 0 is the opcode, bytes 1..4 are the offset and bytes 5..8 the count, each with the most
significant byte first. -/
theorem createCommandBuffer_layout (host : Host) (opcode offset count : Nat)
    (hop : opcode < 256) (hoff : offset < 4294967296) (hcnt : count < 4294967296) :
    (createCommandBuffer host opcode offset count).length = 9 ∧
    createCommandBuffer host opcode offset count
      = [opcode,
         offset / 16777216 % 256, offset / 65536 % 256, offset / 256 % 256, offset % 256,
         count / 16777216 % 256, count / 65536 % 256, count / 256 % 256, count % 256] := by
  have h1 : u8 opcode = opcode := Nat.mod_eq_of_lt hop
  have h2 : u32 offset = offset := Nat.mod_eq_of_lt hoff
  have h3 : u32 count = count := Nat.mod_eq_of_lt hcnt
  refine ⟨createCommandBuffer_length host opcode offset count, ?_⟩
  rw [createCommandBuffer_eq, h1, h2, h3]
  rfl

/-- Instance of C1: opcode `0x57`, offset `0x01020304`, count `0x20`. -/
theorem createCommandBuffer_layout_witness :
    (createCommandBuffer sampleHost 0x57 0x01020304 0x20).length = 9 ∧
    createCommandBuffer sampleHost 0x57 0x01020304 0x20
      = [0x57, 0x01, 0x02, 0x03, 0x04, 0x00, 0x00, 0x00, 0x20] :=
  createCommandBuffer_layout sampleHost 0x57 0x01020304 0x20 (by decide) (by decide)
    (by decide)

/-- C2: `decodeCommandBuffer` (byte 0 as opcode, bytes 1..4 and 5..8 read as big-endian
32-bit values) recovers the triple from the frame built by `createCommandBuffer`; hence two
triples with the same frame are equal. -/
theorem createCommandBuffer_roundtrip (host : Host)
    (opcode offset count opcode' offset' count' : Nat)
    (hop : opcode < 256) (hoff : offset < 4294967296) (hcnt : count < 4294967296)
    (hop' : opcode' < 256) (hoff' : offset' < 4294967296) (hcnt' : count' < 4294967296) :
    decodeCommandBuffer (createCommandBuffer host opcode offset count)
      = some (opcode, offset, count) ∧
    (createCommandBuffer host opcode offset count
        = createCommandBuffer host opcode' offset' count' →
      opcode = opcode' ∧ offset = offset' ∧ count = count') := by
  have h := decodeCommandBuffer_createCommandBuffer host opcode offset count hop hoff hcnt
  have h' := decodeCommandBuffer_createCommandBuffer host opcode' offset' count' hop' hoff'
    hcnt'
  refine ⟨h, fun heq => ?_⟩
  rw [heq, h'] at h
  simpa [eq_comm] using h

/-- Instance of C2: the frame of `(0x57, 0x01020304, 0x20)` decodes to that triple and
differs from the frame of `(0x57, 0x01020304, 0x21)`. -/
theorem createCommandBuffer_roundtrip_witness :
    decodeCommandBuffer (createCommandBuffer sampleHost 0x57 0x01020304 0x20)
      = some (0x57, 0x01020304, 0x20) ∧
    (createCommandBuffer sampleHost 0x57 0x01020304 0x20
        = createCommandBuffer sampleHost 0x57 0x01020304 0x21 →
      0x57 = 0x57 ∧ 0x01020304 = 0x01020304 ∧ 0x20 = 0x21) :=
  createCommandBuffer_roundtrip sampleHost 0x57 0x01020304 0x20 0x57 0x01020304 0x21
    (by decide) (by decide) (by decide) (by decide) (by decide) (by decide)

/-! ## `read` and `write` (claims C3 to C8) -/

namespace EmsCart

theorem readCommand_eq_some_iff (K : EmsCartH) (src : EmsMemory) (cmd : Nat) :
    readCommand K src = some cmd ↔
      (src = EmsMemory.ROM ∧ cmd = u8 K.ReadROMCommand)
        ∨ (src = EmsMemory.SRAM ∧ cmd = u8 K.ReadSRAMCommand) := by
  cases src <;> simp [readCommand, eq_comm]

theorem writeCommand_eq_some_iff (K : EmsCartH) (dst : EmsMemory) (cmd : Nat) :
    writeCommand K dst = some cmd ↔
      (dst = EmsMemory.ROM ∧ cmd = u8 K.WriteROMCommand)
        ∨ (dst = EmsMemory.SRAM ∧ cmd = u8 K.WriteSRAMCommand) := by
  cases dst <;> simp [writeCommand, eq_comm]

/-- C3: for the targets ROM and SRAM and every data, offset and count (the length of the
data need not be the count), `write` adds exactly one event to the log: one bulk transfer
on the send endpoint whose buffer is the command frame of the write-ROM opcode (for ROM) or
of the write-SRAM opcode (for SRAM) followed immediately by the data. -/
theorem write_single_transfer (K : EmsCartH) (host : Host) (usb : Libusb) (s : EmsCart)
    (log : List Event) (data : List Nat) (offset count : Nat) :
    (write K host usb s log EmsMemory.ROM data offset count).2
      = log ++ [Event.libusb_bulk_transfer s.m_deviceHandle K.SendEndpoint
          (createCommandBuffer host K.WriteROMCommand offset count ++ data)
          (9 + data.length)] ∧
    (write K host usb s log EmsMemory.SRAM data offset count).2
      = log ++ [Event.libusb_bulk_transfer s.m_deviceHandle K.SendEndpoint
          (createCommandBuffer host K.WriteSRAMCommand offset count ++ data)
          (9 + data.length)] := by
  constructor
  · rw [write_of_command K host usb s log EmsMemory.ROM data offset count
      (u8 K.WriteROMCommand) rfl, createCommandBuffer_u8]
  · rw [write_of_command K host usb s log EmsMemory.SRAM data offset count
      (u8 K.WriteSRAMCommand) rfl, createCommandBuffer_u8]

/-- C4: for a target other than ROM and SRAM, `read` returns the empty byte array and
`write` returns false; each only writes a warning, so the libusb calls of the log are
unchanged. -/
theorem invalid_target_no_transport (K : EmsCartH) (host : Host) (usb : Libusb)
    (s : EmsCart) (log : List Event) (value : Int) (data : List Nat) (offset count : Nat) :
    read K host usb s log (EmsMemory.other value) offset count
      = ([], log ++ [Event.qWarning Warning.fromInvalid]) ∧
    write K host usb s log (EmsMemory.other value) data offset count
      = (false, log ++ [Event.qWarning Warning.toInvalid]) ∧
    usbCalls (read K host usb s log (EmsMemory.other value) offset count).2 = usbCalls log ∧
    usbCalls (write K host usb s log (EmsMemory.other value) data offset count).2
      = usbCalls log := by
  simp [read, write, readCommand, writeCommand, usbCalls, Event.isUsbCall]

/-- C5: for a target in {ROM, SRAM} (`readCommand K src = some cmd`: `cmd` is its read
opcode), if the bulk transfer that sends the command frame returns a negative code, `read`
returns the empty byte array and the only event added to the log is that one send: no
transfer on the receive endpoint is attempted. -/
theorem read_send_failure (K : EmsCartH) (host : Host) (usb : Libusb) (s : EmsCart)
    (log : List Event) (src : EmsMemory) (offset count cmd : Nat)
    (hcmd : readCommand K src = some cmd)
    (hfail : (usb.libusb_bulk_transfer log s.m_deviceHandle K.SendEndpoint
      (createCommandBuffer host cmd offset count) 9).result < 0) :
    read K host usb s log src offset count
      = ([], log ++ [Event.libusb_bulk_transfer s.m_deviceHandle K.SendEndpoint
          (createCommandBuffer host cmd offset count) 9]) := by
  rw [read_of_command K host usb s log src offset count cmd hcmd]
  simp only [hfail, if_true]

/-- Instance of C5: reading two bytes of ROM at offset 0 when every transfer fails. -/
theorem read_send_failure_witness :
    read sampleH sampleHost usbFailing ⟨some 7, true⟩ [] EmsMemory.ROM 0 2
      = ([], [] ++ [Event.libusb_bulk_transfer (some 7) 0x02
          (createCommandBuffer sampleHost 0xff 0 2) 9]) :=
  read_send_failure sampleH sampleHost usbFailing ⟨some 7, true⟩ [] EmsMemory.ROM 0 2 0xff
    (by decide) (by decide)

/-- For a target in {ROM, SRAM} with read opcode `cmd` and a count below `2^31`, if the
send of the command frame is accepted (non-negative code) and the transfer on the receive
endpoint that follows it succeeds and delivers exactly `count` bytes `b`, then `read`
returns `b`, a buffer of length `count`. -/
theorem read_returns_received (K : EmsCartH) (host : Host) (usb : Libusb) (s : EmsCart)
    (log : List Event) (src : EmsMemory) (offset count cmd : Nat) (code : Int)
    (b : List Nat)
    (hcmd : readCommand K src = some cmd)
    (hcount : count < 2147483648)
    (hsend : 0 ≤ (usb.libusb_bulk_transfer log s.m_deviceHandle K.SendEndpoint
      (createCommandBuffer host cmd offset count) 9).result)
    (hreceive : usb.libusb_bulk_transfer
      (log ++ [Event.libusb_bulk_transfer s.m_deviceHandle K.SendEndpoint
        (createCommandBuffer host cmd offset count) 9])
      s.m_deviceHandle K.ReceiveEndpoint (QByteArray.resize host [] count) count
        = { result := code, data := b })
    (hcode : 0 ≤ code) (hb : b.length = count) :
    (read K host usb s log src offset count).1 = b ∧
    (read K host usb s log src offset count).1.length = count := by
  have hc : toInt count = (count : Int) := toInt_of_lt count hcount
  have hl : (QByteArray.resize host [] (count : Int)).length = count := by
    rw [length_resize_nil]; simp
  have h : (read K host usb s log src offset count).1 = b := by
    rw [read_of_command K host usb s log src offset count cmd hcmd]
    simp only [hc, hreceive, not_lt.mpr hsend, not_lt.mpr hcode, if_false, hl, Int.toNat_ofNat,
      Nat.min_self]
    rw [List.take_of_length_le (le_of_eq hb), List.drop_eq_nil_of_le (by rw [hl, hb]),
      List.append_nil]
  exact ⟨h, by rw [h, hb]⟩

/-- Reading three bytes of SRAM at offset 16 when every call succeeds. -/
theorem read_returns_received_example :
    (read sampleH sampleHost usbAccepting ⟨some 7, true⟩ [] EmsMemory.SRAM 16 3).1
      = [0, 1, 2] ∧
    (read sampleH sampleHost usbAccepting ⟨some 7, true⟩ [] EmsMemory.SRAM 16 3).1.length
      = 3 :=
  read_returns_received sampleH sampleHost usbAccepting ⟨some 7, true⟩ [] EmsMemory.SRAM 16 3
    0x6d 0 [0, 1, 2] (by decide) (by decide) (by decide) (by rfl) (by decide) (by decide)

/-- For a 32-bit count from `2^31` on, the count converted to `int` is negative, the
buffer is resized to no bytes, and `read` returns the empty byte array whatever the
transport does. -/
theorem read_empty_of_large_count (K : EmsCartH) (host : Host) (usb : Libusb) (s : EmsCart)
    (log : List Event) (src : EmsMemory) (offset count : Nat)
    (h1 : 2147483648 ≤ count) (h2 : count < 4294967296) :
    (read K host usb s log src offset count).1 = [] := by
  cases hcmd : readCommand K src with
  | none => simp [read, hcmd]
  | some cmd =>
    have hneg := toInt_neg_of_ge count h1 h2
    have hbuf : QByteArray.resize host [] (toInt count) = [] := by
      apply List.eq_nil_of_length_eq_zero
      rw [length_resize_nil]
      omega
    rw [read_of_command K host usb s log src offset count cmd hcmd]
    simp only [hbuf, List.length_nil, Nat.min_zero, List.take_zero, List.drop_nil,
      List.append_nil]
    split_ifs <;> rfl

/-- C7: for a target in {ROM, SRAM} with write opcode `cmd`, `write` makes one bulk
transfer and no other call; it returns true exactly when that transfer did not report a
failure (its code is not negative) and false exactly when it did. -/
theorem write_result_iff (K : EmsCartH) (host : Host) (usb : Libusb) (s : EmsCart)
    (log : List Event) (dst : EmsMemory) (data : List Nat) (offset count cmd : Nat)
    (hcmd : writeCommand K dst = some cmd) :
    ((write K host usb s log dst data offset count).1 = true ↔
      0 ≤ (usb.libusb_bulk_transfer log s.m_deviceHandle K.SendEndpoint
        (createCommandBuffer host cmd offset count ++ data) (9 + data.length)).result) ∧
    ((write K host usb s log dst data offset count).1 = false ↔
      (usb.libusb_bulk_transfer log s.m_deviceHandle K.SendEndpoint
        (createCommandBuffer host cmd offset count ++ data) (9 + data.length)).result < 0) ∧
    (write K host usb s log dst data offset count).2
      = log ++ [Event.libusb_bulk_transfer s.m_deviceHandle K.SendEndpoint
          (createCommandBuffer host cmd offset count ++ data) (9 + data.length)] := by
  rw [write_of_command K host usb s log dst data offset count cmd hcmd]
  simp

/-- Instance of C7: writing two bytes to ROM when every transfer fails. -/
theorem write_result_iff_witness :
    ((write sampleH sampleHost usbFailing ⟨some 7, true⟩ [] EmsMemory.ROM [1, 2] 0 2).1
        = true ↔
      0 ≤ (usbFailing.libusb_bulk_transfer [] (some 7) 0x02
        (createCommandBuffer sampleHost 0x57 0 2 ++ [1, 2]) (9 + 2)).result) ∧
    ((write sampleH sampleHost usbFailing ⟨some 7, true⟩ [] EmsMemory.ROM [1, 2] 0 2).1
        = false ↔
      (usbFailing.libusb_bulk_transfer [] (some 7) 0x02
        (createCommandBuffer sampleHost 0x57 0 2 ++ [1, 2]) (9 + 2)).result < 0) ∧
    (write sampleH sampleHost usbFailing ⟨some 7, true⟩ [] EmsMemory.ROM [1, 2] 0 2).2
      = [] ++ [Event.libusb_bulk_transfer (some 7) 0x02
          (createCommandBuffer sampleHost 0x57 0 2 ++ [1, 2]) (9 + 2)] :=
  write_result_iff sampleH sampleHost usbFailing ⟨some 7, true⟩ [] EmsMemory.ROM [1, 2] 0 2
    0x57 (by decide)

end EmsCart

/-! ## Lemmas on the discovery loop -/

namespace EmsCart

/-- Devices with a readable descriptor of another identity are passed over: each costs one
descriptor read and advances the index. -/
theorem findDeviceLoop_skip (K : EmsCartH) (usb : Libusb) (before rest : List libusb_device)
    (hbefore : ∀ d ∈ before, d.descriptorResult = 0 ∧
      ¬ (d.idVendor = K.UsbVID ∧ d.idProduct = K.UsbPID))
    (i : Nat) (s : EmsCart) (log : List Event) :
    findDeviceLoop K usb (before ++ rest) i s log
      = findDeviceLoop K usb rest (i + before.length) s
          (log ++ before.map Event.libusb_get_device_descriptor) := by
  induction before generalizing i log with
  | nil => simp
  | cons d ds ih =>
    have hd := hbefore d (List.mem_cons_self d ds)
    have hds : ∀ x ∈ ds, x.descriptorResult = 0 ∧
        ¬ (x.idVendor = K.UsbVID ∧ x.idProduct = K.UsbPID) :=
      fun x hx => hbefore x (List.mem_cons_of_mem d hx)
    rw [List.cons_append, findDeviceLoop]
    simp only [hd.1, hd.2, if_true, if_false]
    rw [ih hds]
    simp [Nat.add_assoc, Nat.add_comm 1]

/-- A list that holds a matching device splits at the first one. -/
theorem exists_first_match (K : EmsCartH) (devs : List libusb_device)
    (h : ∃ d ∈ devs, d.idVendor = K.UsbVID ∧ d.idProduct = K.UsbPID) :
    ∃ before dev after, devs = before ++ dev :: after ∧
      (∀ d ∈ before, ¬ (d.idVendor = K.UsbVID ∧ d.idProduct = K.UsbPID)) ∧
      (dev.idVendor = K.UsbVID ∧ dev.idProduct = K.UsbPID) := by
  induction devs with
  | nil => simp at h
  | cons x xs ih =>
    by_cases hx : x.idVendor = K.UsbVID ∧ x.idProduct = K.UsbPID
    · exact ⟨[], x, xs, rfl, by simp, hx⟩
    · obtain ⟨d, hd, hm⟩ := h
      have hxs : ∃ d ∈ xs, d.idVendor = K.UsbVID ∧ d.idProduct = K.UsbPID := by
        rcases List.mem_cons.mp hd with rfl | hd'
        · exact absurd hm hx
        · exact ⟨d, hd', hm⟩
      obtain ⟨before, dev, after, heq, hb, hdev⟩ := ih hxs
      refine ⟨x :: before, dev, after, by rw [heq]; rfl, ?_, hdev⟩
      intro d hd
      rcases List.mem_cons.mp hd with rfl | hd'
      · exact hx
      · exact hb d hd'

/-- One turn of the loop on a device whose descriptor cannot be read. -/
theorem findDeviceLoop_unreadable (K : EmsCartH) (usb : Libusb) (dev : libusb_device)
    (rest : List libusb_device) (i : Nat) (s : EmsCart) (log : List Event)
    (hr : dev.descriptorResult ≠ 0) :
    findDeviceLoop K usb (dev :: rest) i s log
      = findDeviceLoop K usb rest (i + 1) s
          (log ++ [Event.libusb_get_device_descriptor dev,
            Event.qWarning (Warning.descriptorFailed dev.descriptorResult)]) := by
  rw [findDeviceLoop]
  simp only [hr, if_false, List.append_assoc, List.singleton_append]

/-- One turn of the loop on a device with a readable descriptor of another identity. -/
theorem findDeviceLoop_other (K : EmsCartH) (usb : Libusb) (dev : libusb_device)
    (rest : List libusb_device) (i : Nat) (s : EmsCart) (log : List Event)
    (hr : dev.descriptorResult = 0)
    (hm : ¬ (dev.idVendor = K.UsbVID ∧ dev.idProduct = K.UsbPID)) :
    findDeviceLoop K usb (dev :: rest) i s log
      = findDeviceLoop K usb rest (i + 1) s
          (log ++ [Event.libusb_get_device_descriptor dev]) := by
  rw [findDeviceLoop]
  simp only [hr, if_true]
  rw [if_neg hm]

/-- The loop on a matching device whose `libusb_open` fails: the members are untouched. -/
theorem findDeviceLoop_open_failed (K : EmsCartH) (usb : Libusb) (dev : libusb_device)
    (rest : List libusb_device) (i : Nat) (s : EmsCart) (log : List Event)
    (hr : dev.descriptorResult = 0)
    (hm : dev.idVendor = K.UsbVID ∧ dev.idProduct = K.UsbPID)
    (ho : (usb.libusb_open (log ++ [Event.libusb_get_device_descriptor dev]) dev).1 ≠ 0) :
    findDeviceLoop K usb (dev :: rest) i s log
      = (i, s, log ++ [Event.libusb_get_device_descriptor dev, Event.libusb_open dev,
          Event.qWarning (Warning.openFailed
            (usb.libusb_open (log ++ [Event.libusb_get_device_descriptor dev]) dev).1)]
          ++ (if (usb.libusb_open (log ++ [Event.libusb_get_device_descriptor dev]) dev).1
                = LIBUSB_ERROR_ACCESS then [Event.error ErrorMessage.deviceAccess]
              else if (usb.libusb_open (log ++ [Event.libusb_get_device_descriptor dev]) dev).1
                = LIBUSB_ERROR_NOT_SUPPORTED then [Event.error ErrorMessage.deviceNotSupported]
              else [])) := by
  rw [findDeviceLoop]
  simp only [hr, if_true]
  rw [if_pos hm, if_pos ho]
  split_ifs <;> simp

/-- The loop on a matching device that opens but whose interface 0 cannot be claimed: the
handle is stored, the claimed flag is untouched. -/
theorem findDeviceLoop_claim_failed (K : EmsCartH) (usb : Libusb) (dev : libusb_device)
    (rest : List libusb_device) (i : Nat) (s : EmsCart) (log : List Event)
    (hr : dev.descriptorResult = 0)
    (hm : dev.idVendor = K.UsbVID ∧ dev.idProduct = K.UsbPID)
    (ho : (usb.libusb_open (log ++ [Event.libusb_get_device_descriptor dev]) dev).1 = 0)
    (hc : usb.libusb_claim_interface
      (log ++ [Event.libusb_get_device_descriptor dev, Event.libusb_open dev])
      (usb.libusb_open (log ++ [Event.libusb_get_device_descriptor dev]) dev).2 0 < 0) :
    findDeviceLoop K usb (dev :: rest) i s log
      = (i, { s with m_deviceHandle :=
            (usb.libusb_open (log ++ [Event.libusb_get_device_descriptor dev]) dev).2 },
          log ++ [Event.libusb_get_device_descriptor dev, Event.libusb_open dev,
            Event.libusb_claim_interface
              (usb.libusb_open (log ++ [Event.libusb_get_device_descriptor dev]) dev).2 0,
            Event.qWarning (Warning.claimInterfaceError (usb.libusb_claim_interface
              (log ++ [Event.libusb_get_device_descriptor dev, Event.libusb_open dev])
              (usb.libusb_open (log ++ [Event.libusb_get_device_descriptor dev]) dev).2
              0))]) := by
  rw [findDeviceLoop]
  simp only [hr, if_true]
  rw [if_pos hm, if_neg (not_not.mpr ho)]
  simp only [List.append_assoc, List.singleton_append]
  rw [if_pos hc]
  rfl

/-- The loop on a matching device that opens and whose interface 0 is claimed. -/
theorem findDeviceLoop_claim_ok (K : EmsCartH) (usb : Libusb) (dev : libusb_device)
    (rest : List libusb_device) (i : Nat) (s : EmsCart) (log : List Event)
    (hr : dev.descriptorResult = 0)
    (hm : dev.idVendor = K.UsbVID ∧ dev.idProduct = K.UsbPID)
    (ho : (usb.libusb_open (log ++ [Event.libusb_get_device_descriptor dev]) dev).1 = 0)
    (hc : 0 ≤ usb.libusb_claim_interface
      (log ++ [Event.libusb_get_device_descriptor dev, Event.libusb_open dev])
      (usb.libusb_open (log ++ [Event.libusb_get_device_descriptor dev]) dev).2 0) :
    findDeviceLoop K usb (dev :: rest) i s log
      = (i, EmsCart.mk
            (usb.libusb_open (log ++ [Event.libusb_get_device_descriptor dev]) dev).2 true,
          log ++ [Event.libusb_get_device_descriptor dev, Event.libusb_open dev,
            Event.libusb_claim_interface
              (usb.libusb_open (log ++ [Event.libusb_get_device_descriptor dev]) dev).2 0,
            Event.readyChanged true]) := by
  rw [findDeviceLoop]
  simp only [hr, if_true]
  rw [if_pos hm, if_neg (not_not.mpr ho)]
  simp only [List.append_assoc, List.singleton_append]
  rw [if_neg (not_lt.mpr hc)]
  rfl

/-- The loop never emits `readyChanged(false)`. -/
theorem findDeviceLoop_readySignals_false (K : EmsCartH) (usb : Libusb)
    (devs : List libusb_device) (i : Nat) (s : EmsCart) (log : List Event) :
    (readySignals (findDeviceLoop K usb devs i s log).2.2).count false
      = (readySignals log).count false := by
  induction devs generalizing i log with
  | nil => simp [findDeviceLoop]
  | cons d ds ih =>
    by_cases hr : d.descriptorResult = 0
    · by_cases hm : d.idVendor = K.UsbVID ∧ d.idProduct = K.UsbPID
      · by_cases ho : (usb.libusb_open (log ++ [Event.libusb_get_device_descriptor d]) d).1
            = 0
        · rcases lt_or_le (usb.libusb_claim_interface
              (log ++ [Event.libusb_get_device_descriptor d, Event.libusb_open d])
              (usb.libusb_open (log ++ [Event.libusb_get_device_descriptor d]) d).2 0) 0
            with hc | hc
          · rw [findDeviceLoop_claim_failed K usb d ds i s log hr hm ho hc]
            simp [readySignals, List.filterMap_append]
          · rw [findDeviceLoop_claim_ok K usb d ds i s log hr hm ho hc]
            simp [readySignals, List.filterMap_append]
        · rw [findDeviceLoop_open_failed K usb d ds i s log hr hm ho]
          split_ifs <;> simp [readySignals, List.filterMap_append]
      · rw [findDeviceLoop_other K usb d ds i s log hr hm, ih]
        simp [readySignals, List.filterMap_append]
    · rw [findDeviceLoop_unreadable K usb d ds i s log hr, ih]
      simp [readySignals, List.filterMap_append]

/-- Full discovery never emits `readyChanged(false)`. -/
theorem discover_readySignals_false (K : EmsCartH) (usb : Libusb) (s : EmsCart)
    (log : List Event) :
    (readySignals (discover K usb s log).2).count false = (readySignals log).count false := by
  unfold discover
  cases hl : usb.libusb_get_device_list log with
  | failed n => simp [readySignals, List.filterMap_append]
  | devices deviceList =>
    have h := findDeviceLoop_readySignals_false K usb deviceList 0 s
      (log ++ [Event.libusb_get_device_list])
    simp only
    split_ifs <;>
      simpa [readySignals, List.filterMap_append] using h

/-- When the loop starts with the claimed flag false and ends with it true, it ended by
opening a device with a readable matching descriptor and claiming interface 0 on the handle
obtained, both with success. -/
theorem findDeviceLoop_claimed (K : EmsCartH) (usb : Libusb) (devs : List libusb_device)
    (i : Nat) (s : EmsCart) (log : List Event) (hs : s.m_interfaceClaimed = false)
    (h : (findDeviceLoop K usb devs i s log).2.1.m_interfaceClaimed = true) :
    ∃ l dev, dev ∈ devs ∧
      (dev.descriptorResult = 0 ∧ dev.idVendor = K.UsbVID ∧ dev.idProduct = K.UsbPID) ∧
      (usb.libusb_open l dev).1 = 0 ∧
      0 ≤ usb.libusb_claim_interface (l ++ [Event.libusb_open dev])
        (usb.libusb_open l dev).2 0 ∧
      (findDeviceLoop K usb devs i s log).2.1.m_deviceHandle = (usb.libusb_open l dev).2 ∧
      (findDeviceLoop K usb devs i s log).2.2
        = l ++ [Event.libusb_open dev,
            Event.libusb_claim_interface (usb.libusb_open l dev).2 0,
            Event.readyChanged true] ∧
      (findDeviceLoop K usb devs i s log).1 < i + devs.length := by
  induction devs generalizing i log with
  | nil => simp [findDeviceLoop, hs] at h
  | cons d ds ih =>
    by_cases hr : d.descriptorResult = 0
    · by_cases hm : d.idVendor = K.UsbVID ∧ d.idProduct = K.UsbPID
      · by_cases ho : (usb.libusb_open (log ++ [Event.libusb_get_device_descriptor d]) d).1
            = 0
        · rcases lt_or_le (usb.libusb_claim_interface
              (log ++ [Event.libusb_get_device_descriptor d, Event.libusb_open d])
              (usb.libusb_open (log ++ [Event.libusb_get_device_descriptor d]) d).2 0) 0
            with hc | hc
          · rw [findDeviceLoop_claim_failed K usb d ds i s log hr hm ho hc] at h
            simp [hs] at h
          · rw [findDeviceLoop_claim_ok K usb d ds i s log hr hm ho hc]
            refine ⟨log ++ [Event.libusb_get_device_descriptor d], d,
              List.mem_cons_self d ds, ⟨hr, hm.1, hm.2⟩, ho, ?_, rfl, ?_, ?_⟩
            · simpa using hc
            · simp
            · simp
        · rw [findDeviceLoop_open_failed K usb d ds i s log hr hm ho] at h
          simp [hs] at h
      · rw [findDeviceLoop_other K usb d ds i s log hr hm] at h ⊢
        obtain ⟨l, dev, hmem, hdev, hopen, hclaim, hh, hlog, hi⟩ := ih (i + 1) _ h
        exact ⟨l, dev, List.mem_cons_of_mem d hmem, hdev, hopen, hclaim, hh, hlog,
          by simp only [List.length_cons]; omega⟩
    · rw [findDeviceLoop_unreadable K usb d ds i s log hr] at h ⊢
      obtain ⟨l, dev, hmem, hdev, hopen, hclaim, hh, hlog, hi⟩ := ih (i + 1) _ h
      exact ⟨l, dev, List.mem_cons_of_mem d hmem, hdev, hopen, hclaim, hh, hlog,
        by simp only [List.length_cons]; omega⟩

/-- When full discovery starts with the claimed flag false and the session is ready when it
returns, discovery opened a device with a readable matching descriptor and claimed
interface 0 on the handle obtained, both with success, and did nothing after that but free
the device list. -/
theorem discover_ready (K : EmsCartH) (usb : Libusb) (s : EmsCart) (log : List Event)
    (hs : s.m_interfaceClaimed = false) (h : ready (discover K usb s log).1 = true) :
    ∃ l dev handle,
      (dev.descriptorResult = 0 ∧ dev.idVendor = K.UsbVID ∧ dev.idProduct = K.UsbPID) ∧
      usb.libusb_open l dev = (0, some handle) ∧
      0 ≤ usb.libusb_claim_interface (l ++ [Event.libusb_open dev]) (some handle) 0 ∧
      (discover K usb s log).2
        = l ++ [Event.libusb_open dev, Event.libusb_claim_interface (some handle) 0,
            Event.readyChanged true, Event.libusb_free_device_list] := by
  unfold discover at h ⊢
  cases hl : usb.libusb_get_device_list log with
  | failed n =>
    rw [hl] at h
    simp [ready, hs] at h
  | devices deviceList =>
    rw [hl] at h
    simp only [ready, Bool.and_eq_true] at h
    simp only at h ⊢
    obtain ⟨l, dev, _, hdev, hopen, hclaim, hh, hlog, hi⟩ :=
      findDeviceLoop_claimed K usb deviceList 0 s (log ++ [Event.libusb_get_device_list])
        hs h.2
    have hsome := h.1
    rw [hh, Option.isSome_iff_exists] at hsome
    obtain ⟨handle, hhandle⟩ := hsome
    refine ⟨l, dev, handle, hdev, ?_, ?_, ?_⟩
    · exact Prod.ext hopen hhandle
    · rw [← hhandle]; exact hclaim
    · have hne : (findDeviceLoop K usb deviceList 0 s
          (log ++ [Event.libusb_get_device_list])).1 ≠ deviceList.length := by omega
      simp only [hne, if_false, hlog, hhandle]
      simp

end EmsCart

/-! ## Readiness and transfers (claim C8) -/

namespace EmsCart

/-- C8 as stated fails. With a handle that was opened but whose interface is not claimed,
`ready()` is false, yet `write` to ROM sends its buffer and returns true, and `read` of ROM
sends the frame, receives, and returns two bytes. With no handle at all and a transport that
refuses everything, `write` still attempts the bulk transfer, on the null handle. -/
theorem not_ready_transfer_attempted :
    ready ⟨some 7, false⟩ = false ∧
    write sampleH sampleHost usbAccepting ⟨some 7, false⟩ [] EmsMemory.ROM [1, 2] 0 2
      = (true, [Event.libusb_bulk_transfer (some 7) 0x02
          [0x57, 0, 0, 0, 0, 0, 0, 0, 2, 1, 2] 11]) ∧
    read sampleH sampleHost usbAccepting ⟨some 7, false⟩ [] EmsMemory.ROM 0 2
      = ([0, 1], [Event.libusb_bulk_transfer (some 7) 0x02 [0xff, 0, 0, 0, 0, 0, 0, 0, 2] 9,
          Event.libusb_bulk_transfer (some 7) 0x81 [0xAA, 0xAA] 2]) ∧
    ready ⟨none, false⟩ = false ∧
    write sampleH sampleHost usbFailing ⟨none, false⟩ [] EmsMemory.ROM [1, 2] 0 2
      = (false, [Event.libusb_bulk_transfer none 0x02
          [0x57, 0, 0, 0, 0, 0, 0, 0, 2, 1, 2] 11]) := by
  decide

/-- C8 amended: in a session that is not ready, `read` and `write` with a target other than
ROM and SRAM return the empty byte array and false and attempt no bulk transfer; with a
target in {ROM, SRAM} they do not consult `ready()`: the outbound bulk transfer is
attempted on the stored handle, and `read` returns the empty byte array and `write` returns
false when that transfer reports a failure. -/
theorem not_ready_read_write (K : EmsCartH) (host : Host) (usb : Libusb) (s : EmsCart)
    (log : List Event) (target : EmsMemory) (data : List Nat) (offset count : Nat)
    (_hnr : ready s = false) :
    (∀ value, target = EmsMemory.other value →
      (read K host usb s log target offset count).1 = [] ∧
      (write K host usb s log target data offset count).1 = false ∧
      (read K host usb s log target offset count).2.filter Event.isBulkTransfer
        = log.filter Event.isBulkTransfer ∧
      (write K host usb s log target data offset count).2.filter Event.isBulkTransfer
        = log.filter Event.isBulkTransfer) ∧
    (∀ cmd, readCommand K target = some cmd →
      (∃ rest, (read K host usb s log target offset count).2
        = log ++ Event.libusb_bulk_transfer s.m_deviceHandle K.SendEndpoint
            (createCommandBuffer host cmd offset count) 9 :: rest) ∧
      ((usb.libusb_bulk_transfer log s.m_deviceHandle K.SendEndpoint
          (createCommandBuffer host cmd offset count) 9).result < 0 →
        (read K host usb s log target offset count).1 = [])) ∧
    (∀ cmd, writeCommand K target = some cmd →
      (write K host usb s log target data offset count).2
        = log ++ [Event.libusb_bulk_transfer s.m_deviceHandle K.SendEndpoint
            (createCommandBuffer host cmd offset count ++ data) (9 + data.length)] ∧
      ((usb.libusb_bulk_transfer log s.m_deviceHandle K.SendEndpoint
          (createCommandBuffer host cmd offset count ++ data) (9 + data.length)).result < 0 →
        (write K host usb s log target data offset count).1 = false)) := by
  refine ⟨?_, ?_, ?_⟩
  · rintro value rfl
    simp [read, write, readCommand, writeCommand, Event.isBulkTransfer]
  · intro cmd hcmd
    rw [read_of_command K host usb s log target offset count cmd hcmd]
    constructor
    · simp only
      split_ifs
      · exact ⟨[], rfl⟩
      · exact ⟨[_], rfl⟩
      · exact ⟨[_], rfl⟩
    · intro hfail
      simp only [hfail, if_true]
  · intro cmd hcmd
    rw [write_of_command K host usb s log target data offset count cmd hcmd]
    refine ⟨rfl, fun hfail => ?_⟩
    simpa using hfail

/-- Instance of C8 amended: the freshly constructed session, target ROM, a transport that
refuses every transfer. -/
theorem not_ready_read_write_witness :
    ready ⟨none, false⟩ = false ∧
    (∀ cmd, writeCommand sampleH EmsMemory.ROM = some cmd →
      (write sampleH sampleHost usbFailing ⟨none, false⟩ [] EmsMemory.ROM [1, 2] 0 2).2
        = [] ++ [Event.libusb_bulk_transfer none 0x02
            (createCommandBuffer sampleHost cmd 0 2 ++ [1, 2]) (9 + 2)] ∧
      ((usbFailing.libusb_bulk_transfer [] none 0x02
          (createCommandBuffer sampleHost cmd 0 2 ++ [1, 2]) (9 + 2)).result < 0 →
        (write sampleH sampleHost usbFailing ⟨none, false⟩ [] EmsMemory.ROM [1, 2] 0 2).1
          = false)) :=
  ⟨by decide,
    (not_ready_read_write sampleH sampleHost usbFailing ⟨none, false⟩ [] EmsMemory.ROM [1, 2]
      0 2 (by decide)).2.2⟩

end EmsCart

/-! ## Discovery (claims C9, C10) -/

namespace EmsCart

/-- C9: in a session that is not ready, let enumeration return a list in which the devices
`before` the first matching device `dev` have readable descriptors of another identity
(nothing is assumed on the devices `after` it; every list that holds a matching device
splits in this way, `exists_first_match`). If opening `dev` succeeds with a handle and
claiming interface 0 on that handle succeeds, then `findDevice` reads the descriptors up to
`dev`, opens `dev` and no other device, claims interface 0 once, emits `readyChanged(true)`
once, frees the list, and the session is ready on return. -/
theorem findDevice_first_match (K : EmsCartH) (usb : Libusb) (s : EmsCart)
    (log : List Event) (before after : List libusb_device) (dev : libusb_device)
    (handle : Nat)
    (hnr : ready s = false)
    (hlist : usb.libusb_get_device_list log = DeviceList.devices (before ++ dev :: after))
    (hbefore : ∀ d ∈ before, d.descriptorResult = 0 ∧
      ¬ (d.idVendor = K.UsbVID ∧ d.idProduct = K.UsbPID))
    (hdev : dev.descriptorResult = 0 ∧ dev.idVendor = K.UsbVID ∧ dev.idProduct = K.UsbPID)
    (hopen : usb.libusb_open
      (log ++ Event.libusb_get_device_list
        :: (before ++ [dev]).map Event.libusb_get_device_descriptor) dev = (0, some handle))
    (hclaim : 0 ≤ usb.libusb_claim_interface
      (log ++ Event.libusb_get_device_list
        :: (before ++ [dev]).map Event.libusb_get_device_descriptor
        ++ [Event.libusb_open dev]) (some handle) 0) :
    (findDevice K usb s log).2
      = log ++ Event.libusb_get_device_list
          :: (before ++ [dev]).map Event.libusb_get_device_descriptor
          ++ [Event.libusb_open dev, Event.libusb_claim_interface (some handle) 0,
              Event.readyChanged true, Event.libusb_free_device_list] ∧
    (findDevice K usb s log).1 = ⟨some handle, true⟩ ∧
    ready (findDevice K usb s log).1 = true ∧
    openedDevices (findDevice K usb s log).2 = openedDevices log ++ [dev] ∧
    claimCalls (findDevice K usb s log).2 = claimCalls log ++ [(some handle, 0)] ∧
    readySignals (findDevice K usb s log).2 = readySignals log ++ [true] := by
  have hlog1 : log ++ [Event.libusb_get_device_list]
      ++ before.map Event.libusb_get_device_descriptor
      ++ [Event.libusb_get_device_descriptor dev]
      = log ++ Event.libusb_get_device_list
        :: (before ++ [dev]).map Event.libusb_get_device_descriptor := by simp
  have hlog2 : log ++ [Event.libusb_get_device_list]
      ++ before.map Event.libusb_get_device_descriptor
      ++ [Event.libusb_get_device_descriptor dev, Event.libusb_open dev]
      = log ++ Event.libusb_get_device_list
        :: (before ++ [dev]).map Event.libusb_get_device_descriptor
        ++ [Event.libusb_open dev] := by simp
  have hopen' := hopen
  rw [← hlog1] at hopen'
  have ho : (usb.libusb_open (log ++ [Event.libusb_get_device_list]
      ++ before.map Event.libusb_get_device_descriptor
      ++ [Event.libusb_get_device_descriptor dev]) dev).1 = 0 := by rw [hopen']
  have hc : 0 ≤ usb.libusb_claim_interface (log ++ [Event.libusb_get_device_list]
      ++ before.map Event.libusb_get_device_descriptor
      ++ [Event.libusb_get_device_descriptor dev, Event.libusb_open dev])
      (usb.libusb_open (log ++ [Event.libusb_get_device_list]
        ++ before.map Event.libusb_get_device_descriptor
        ++ [Event.libusb_get_device_descriptor dev]) dev).2 0 := by
    rw [hopen', hlog2]; exact hclaim
  have hloop := findDeviceLoop_claim_ok K usb dev after (0 + before.length) s
    (log ++ [Event.libusb_get_device_list] ++ before.map Event.libusb_get_device_descriptor)
    hdev.1 hdev.2 ho hc
  rw [hopen'] at hloop
  have hne : ¬ (0 + before.length = (before ++ dev :: after).length) := by
    simp only [List.length_append, List.length_cons]; omega
  have hfd : findDevice K usb s log
      = (⟨some handle, true⟩, log ++ Event.libusb_get_device_list
          :: (before ++ [dev]).map Event.libusb_get_device_descriptor
          ++ [Event.libusb_open dev, Event.libusb_claim_interface (some handle) 0,
              Event.readyChanged true, Event.libusb_free_device_list]) := by
    unfold findDevice
    rw [hnr]
    simp only [Bool.false_eq_true, if_false]
    unfold discover
    rw [hlist]
    simp only
    rw [findDeviceLoop_skip K usb before (dev :: after) hbefore, hloop]
    simp only [hne, if_false]
    simp
  rw [hfd]
  refine ⟨rfl, rfl, rfl, ?_, ?_, ?_⟩
  · simp [openedDevices, List.filterMap_append, List.filterMap_map]
  · simp [claimCalls, List.filterMap_append, List.filterMap_map]
  · simp [readySignals, List.filterMap_append, List.filterMap_map]

/-- Instance of C9, the scenario of the specification: the list holds a device
`0x1234:0x5678` and then the programmer; the device at index 1 is the only one opened. -/
theorem findDevice_first_match_witness :
    (findDevice sampleH usbAccepting ⟨none, false⟩ []).2
      = [] ++ Event.libusb_get_device_list
          :: ([otherDevice] ++ [emsDevice]).map Event.libusb_get_device_descriptor
          ++ [Event.libusb_open emsDevice, Event.libusb_claim_interface (some 7) 0,
              Event.readyChanged true, Event.libusb_free_device_list] ∧
    (findDevice sampleH usbAccepting ⟨none, false⟩ []).1 = ⟨some 7, true⟩ ∧
    ready (findDevice sampleH usbAccepting ⟨none, false⟩ []).1 = true ∧
    openedDevices (findDevice sampleH usbAccepting ⟨none, false⟩ []).2
      = openedDevices [] ++ [emsDevice] ∧
    claimCalls (findDevice sampleH usbAccepting ⟨none, false⟩ []).2
      = claimCalls [] ++ [(some 7, 0)] ∧
    readySignals (findDevice sampleH usbAccepting ⟨none, false⟩ []).2
      = readySignals [] ++ [true] :=
  findDevice_first_match sampleH usbAccepting ⟨none, false⟩ [] [otherDevice] [] emsDevice 7
    (by decide) (by rfl) (by decide) (by decide) (by rfl) (by decide)

/-- C10: in a ready session, if the claim of interface 0 that follows the release fails,
`findDevice` continues with full discovery from the state in which the claimed flag is
false and the handle is null, after having closed the handle and emitted
`readyChanged(false)`; that signal is emitted exactly once during the call; and when
discovery does not end by opening a matching device and claiming its interface 0, both with
success, the session is not ready on return. -/
theorem findDevice_reclaim_failure (K : EmsCartH) (usb : Libusb) (s : EmsCart)
    (log : List Event)
    (hready : ready s = true)
    (hfail : usb.libusb_claim_interface
      (log ++ [Event.libusb_release_interface s.m_deviceHandle 0]) s.m_deviceHandle 0 < 0) :
    findDevice K usb s log
      = discover K usb ⟨none, false⟩
          (log ++ [Event.libusb_release_interface s.m_deviceHandle 0,
            Event.libusb_claim_interface s.m_deviceHandle 0,
            Event.qWarning (Warning.claimInterfaceError (usb.libusb_claim_interface
              (log ++ [Event.libusb_release_interface s.m_deviceHandle 0])
              s.m_deviceHandle 0)),
            Event.libusb_close s.m_deviceHandle,
            Event.readyChanged false]) ∧
    (readySignals (findDevice K usb s log).2).count false
      = (readySignals log).count false + 1 ∧
    ((¬ ∃ l dev handle,
        (dev.descriptorResult = 0 ∧ dev.idVendor = K.UsbVID ∧ dev.idProduct = K.UsbPID) ∧
        usb.libusb_open l dev = (0, some handle) ∧
        0 ≤ usb.libusb_claim_interface (l ++ [Event.libusb_open dev]) (some handle) 0 ∧
        (findDevice K usb s log).2
          = l ++ [Event.libusb_open dev, Event.libusb_claim_interface (some handle) 0,
              Event.readyChanged true, Event.libusb_free_device_list]) →
      ready (findDevice K usb s log).1 = false) := by
  have hfd : findDevice K usb s log
      = discover K usb ⟨none, false⟩
          (log ++ [Event.libusb_release_interface s.m_deviceHandle 0,
            Event.libusb_claim_interface s.m_deviceHandle 0,
            Event.qWarning (Warning.claimInterfaceError (usb.libusb_claim_interface
              (log ++ [Event.libusb_release_interface s.m_deviceHandle 0])
              s.m_deviceHandle 0)),
            Event.libusb_close s.m_deviceHandle,
            Event.readyChanged false]) := by
    unfold findDevice
    rw [hready]
    simp only [if_true, hfail, List.append_assoc, List.singleton_append]
    rfl
  refine ⟨hfd, ?_, ?_⟩
  · rw [hfd, discover_readySignals_false]
    simp [readySignals, List.filterMap_append]
  · intro hno
    by_contra hr
    rw [Bool.not_eq_false] at hr
    apply hno
    rw [hfd] at hr ⊢
    exact discover_ready K usb _ _ rfl hr

/-- Instance of C10: a ready session on handle 7 and a transport that refuses every call;
`readyChanged(false)` is emitted once and the session is not ready on return. -/
theorem findDevice_reclaim_failure_witness :
    findDevice sampleH usbFailing ⟨some 7, true⟩ []
      = (⟨none, false⟩, [Event.libusb_release_interface (some 7) 0,
          Event.libusb_claim_interface (some 7) 0,
          Event.qWarning (Warning.claimInterfaceError (-1)),
          Event.libusb_close (some 7),
          Event.readyChanged false,
          Event.libusb_get_device_list,
          Event.qWarning (Warning.deviceListFailed (-11))]) ∧
    (readySignals (findDevice sampleH usbFailing ⟨some 7, true⟩ []).2).count false
      = (readySignals []).count false + 1 := by
  have h := findDevice_reclaim_failure sampleH usbFailing ⟨some 7, true⟩ [] (by decide)
    (by decide)
  exact ⟨h.1.trans (by decide), h.2.1⟩

end EmsCart

/-! ## Lemmas on the two phases of `findDevice` -/

namespace EmsCart

/-- `findDevice` is its fast path followed, unless that returned, by full discovery. -/
theorem findDevice_of_fastPath (K : EmsCartH) (usb : Libusb) (s : EmsCart)
    (log : List Event) (s0 : EmsCart) (log0 : List Event)
    (h : findDeviceFastPath usb s log = some (s0, log0)) :
    findDevice K usb s log = discover K usb s0 log0 := by
  unfold findDeviceFastPath at h
  unfold findDevice
  cases hr : ready s with
  | true =>
    simp only [hr, if_true] at h ⊢
    split_ifs at h ⊢
    simp only [Option.some.injEq, Prod.mk.injEq] at h
    rw [← h.1, ← h.2]
  | false =>
    simp only [hr, Bool.false_eq_true, if_false, Option.some.injEq, Prod.mk.injEq] at h ⊢
    rw [← h.1, ← h.2]

/-- What the fast path leaves when it does not return: either the session was not ready
and nothing happened, or it was ready, the claim failed, and the handle was closed. -/
theorem findDeviceFastPath_some (usb : Libusb) (s : EmsCart) (log : List Event)
    (s0 : EmsCart) (log0 : List Event)
    (h : findDeviceFastPath usb s log = some (s0, log0)) :
    (ready s = false ∧ s0 = s ∧ log0 = log) ∨
    (ready s = true ∧ s0 = ⟨none, false⟩ ∧
      log0 = log ++ [Event.libusb_release_interface s.m_deviceHandle 0,
        Event.libusb_claim_interface s.m_deviceHandle 0,
        Event.qWarning (Warning.claimInterfaceError (usb.libusb_claim_interface
          (log ++ [Event.libusb_release_interface s.m_deviceHandle 0]) s.m_deviceHandle 0)),
        Event.libusb_close s.m_deviceHandle,
        Event.readyChanged false]) := by
  unfold findDeviceFastPath at h
  cases hr : ready s with
  | true =>
    right
    simp only [hr, if_true] at h
    split_ifs at h
    simp only [Option.some.injEq, Prod.mk.injEq] at h
    refine ⟨rfl, h.1.symm, ?_⟩
    rw [← h.2]
    simp
  | false =>
    left
    simp only [hr, Bool.false_eq_true, if_false, Option.some.injEq, Prod.mk.injEq] at h
    exact ⟨rfl, h.1.symm, h.2.symm⟩

/-- Full discovery on a list that was enumerated with success. -/
theorem discover_of_list (K : EmsCartH) (usb : Libusb) (s : EmsCart) (log : List Event)
    (devs : List libusb_device)
    (hlist : usb.libusb_get_device_list log = DeviceList.devices devs) :
    discover K usb s log
      = ((findDeviceLoop K usb devs 0 s (log ++ [Event.libusb_get_device_list])).2.1,
         (if (findDeviceLoop K usb devs 0 s (log ++ [Event.libusb_get_device_list])).1
              = devs.length
           then (findDeviceLoop K usb devs 0 s (log ++ [Event.libusb_get_device_list])).2.2
              ++ [Event.qWarning Warning.deviceNotFound]
           else (findDeviceLoop K usb devs 0 s (log ++ [Event.libusb_get_device_list])).2.2)
          ++ [Event.libusb_free_device_list]) := by
  unfold discover
  rw [hlist]

/-- Devices without a readable matching descriptor are passed over. -/
theorem findDeviceLoop_pass (K : EmsCartH) (usb : Libusb) (before rest : List libusb_device)
    (hbefore : ∀ d ∈ before,
      ¬ (d.descriptorResult = 0 ∧ d.idVendor = K.UsbVID ∧ d.idProduct = K.UsbPID))
    (i : Nat) (s : EmsCart) (log : List Event) :
    findDeviceLoop K usb (before ++ rest) i s log
      = findDeviceLoop K usb rest (i + before.length) s (log ++ passedOver before) := by
  induction before generalizing i log with
  | nil => simp [passedOver]
  | cons d ds ih =>
    have hd := hbefore d (List.mem_cons_self d ds)
    have hds : ∀ x ∈ ds,
        ¬ (x.descriptorResult = 0 ∧ x.idVendor = K.UsbVID ∧ x.idProduct = K.UsbPID) :=
      fun x hx => hbefore x (List.mem_cons_of_mem d hx)
    rw [List.cons_append]
    by_cases hr : d.descriptorResult = 0
    · have hm : ¬ (d.idVendor = K.UsbVID ∧ d.idProduct = K.UsbPID) :=
        fun hm => hd ⟨hr, hm⟩
      rw [findDeviceLoop_other K usb d (ds ++ rest) i s log hr hm, ih hds]
      simp [passedOver, hr, Nat.add_assoc, Nat.add_comm 1]
    · rw [findDeviceLoop_unreadable K usb d (ds ++ rest) i s log hr, ih hds]
      simp [passedOver, hr, Nat.add_assoc, Nat.add_comm 1]

/-- A list that holds a device with a readable matching descriptor splits at the first
one. -/
theorem exists_first_candidate (K : EmsCartH) (devs : List libusb_device)
    (h : ∃ d ∈ devs, d.descriptorResult = 0 ∧ d.idVendor = K.UsbVID ∧ d.idProduct = K.UsbPID) :
    ∃ before dev after, devs = before ++ dev :: after ∧
      (∀ d ∈ before,
        ¬ (d.descriptorResult = 0 ∧ d.idVendor = K.UsbVID ∧ d.idProduct = K.UsbPID)) ∧
      (dev.descriptorResult = 0 ∧ dev.idVendor = K.UsbVID ∧ dev.idProduct = K.UsbPID) := by
  induction devs with
  | nil => simp at h
  | cons x xs ih =>
    by_cases hx : x.descriptorResult = 0 ∧ x.idVendor = K.UsbVID ∧ x.idProduct = K.UsbPID
    · exact ⟨[], x, xs, rfl, by simp, hx⟩
    · obtain ⟨d, hd, hm⟩ := h
      have hxs : ∃ d ∈ xs,
          d.descriptorResult = 0 ∧ d.idVendor = K.UsbVID ∧ d.idProduct = K.UsbPID := by
        rcases List.mem_cons.mp hd with rfl | hd'
        · exact absurd hm hx
        · exact ⟨d, hd', hm⟩
      obtain ⟨before, dev, after, heq, hb, hdev⟩ := ih hxs
      refine ⟨x :: before, dev, after, by rw [heq]; rfl, ?_, hdev⟩
      intro d hd
      rcases List.mem_cons.mp hd with rfl | hd'
      · exact hx
      · exact hb d hd'

theorem openedDevices_passedOver (devs : List libusb_device) :
    openedDevices (passedOver devs) = [] := by
  induction devs with
  | nil => rfl
  | cons d ds ih =>
    unfold openedDevices at ih ⊢
    rw [passedOver, List.filterMap_append, ih]
    split_ifs <;> rfl

theorem describedDevices_passedOver (devs : List libusb_device) :
    describedDevices (passedOver devs) = devs := by
  induction devs with
  | nil => rfl
  | cons d ds ih =>
    unfold describedDevices at ih ⊢
    rw [passedOver, List.filterMap_append, ih]
    split_ifs <;> rfl

theorem readySignals_passedOver (devs : List libusb_device) :
    readySignals (passedOver devs) = [] := by
  induction devs with
  | nil => rfl
  | cons d ds ih =>
    unfold readySignals at ih ⊢
    rw [passedOver, List.filterMap_append, ih]
    split_ifs <;> rfl

theorem count_deviceNotFound_passedOver (devs : List libusb_device) :
    (passedOver devs).count (Event.qWarning Warning.deviceNotFound) = 0 := by
  induction devs with
  | nil => rfl
  | cons d ds ih =>
    rw [passedOver, List.count_append, ih]
    split_ifs <;> simp

theorem filter_onNullHandle_passedOver (devs : List libusb_device) :
    (passedOver devs).filter Event.onNullHandle = [] := by
  induction devs with
  | nil => rfl
  | cons d ds ih =>
    rw [passedOver, List.filter_append, ih]
    split_ifs <;> rfl

/-- Full discovery when no enumerated device has a readable matching descriptor. -/
theorem discover_no_candidate (K : EmsCartH) (usb : Libusb) (s : EmsCart)
    (log : List Event) (devs : List libusb_device)
    (hlist : usb.libusb_get_device_list log = DeviceList.devices devs)
    (hnone : ∀ d ∈ devs,
      ¬ (d.descriptorResult = 0 ∧ d.idVendor = K.UsbVID ∧ d.idProduct = K.UsbPID)) :
    discover K usb s log
      = (s, log ++ [Event.libusb_get_device_list] ++ passedOver devs
          ++ [Event.qWarning Warning.deviceNotFound, Event.libusb_free_device_list]) := by
  have hpass := findDeviceLoop_pass K usb devs [] hnone 0 s
    (log ++ [Event.libusb_get_device_list])
  rw [List.append_nil] at hpass
  rw [discover_of_list K usb s log devs hlist, hpass]
  simp [findDeviceLoop]

/-- Full discovery when opening the first device with a readable matching descriptor
fails: the members are untouched. -/
theorem discover_open_failed (K : EmsCartH) (usb : Libusb) (s : EmsCart) (log : List Event)
    (before after : List libusb_device) (dev : libusb_device)
    (hlist : usb.libusb_get_device_list log = DeviceList.devices (before ++ dev :: after))
    (hbefore : ∀ d ∈ before,
      ¬ (d.descriptorResult = 0 ∧ d.idVendor = K.UsbVID ∧ d.idProduct = K.UsbPID))
    (hdev : dev.descriptorResult = 0 ∧ dev.idVendor = K.UsbVID ∧ dev.idProduct = K.UsbPID)
    (ho : (usb.libusb_open (log ++ [Event.libusb_get_device_list] ++ passedOver before
      ++ [Event.libusb_get_device_descriptor dev]) dev).1 ≠ 0) :
    discover K usb s log
      = (s, log ++ [Event.libusb_get_device_list] ++ passedOver before
          ++ [Event.libusb_get_device_descriptor dev, Event.libusb_open dev,
              Event.qWarning (Warning.openFailed
                (usb.libusb_open (log ++ [Event.libusb_get_device_list] ++ passedOver before
                  ++ [Event.libusb_get_device_descriptor dev]) dev).1)]
          ++ openFailureSignals
              (usb.libusb_open (log ++ [Event.libusb_get_device_list] ++ passedOver before
                ++ [Event.libusb_get_device_descriptor dev]) dev).1
          ++ [Event.libusb_free_device_list]) := by
  have hne : ¬ (0 + before.length = (before ++ dev :: after).length) := by
    simp only [List.length_append, List.length_cons]; omega
  rw [discover_of_list K usb s log _ hlist, findDeviceLoop_pass K usb before _ hbefore,
    findDeviceLoop_open_failed K usb dev after _ s _ hdev.1 hdev.2 ho]
  simp only [hne, if_false, openFailureSignals]

/-- Full discovery when the first device with a readable matching descriptor opens but
the claim of interface 0 fails: the handle is stored, the claimed flag is untouched. -/
theorem discover_claim_failed (K : EmsCartH) (usb : Libusb) (s : EmsCart) (log : List Event)
    (before after : List libusb_device) (dev : libusb_device)
    (hlist : usb.libusb_get_device_list log = DeviceList.devices (before ++ dev :: after))
    (hbefore : ∀ d ∈ before,
      ¬ (d.descriptorResult = 0 ∧ d.idVendor = K.UsbVID ∧ d.idProduct = K.UsbPID))
    (hdev : dev.descriptorResult = 0 ∧ dev.idVendor = K.UsbVID ∧ dev.idProduct = K.UsbPID)
    (ho : (usb.libusb_open (log ++ [Event.libusb_get_device_list] ++ passedOver before
      ++ [Event.libusb_get_device_descriptor dev]) dev).1 = 0)
    (hc : usb.libusb_claim_interface (log ++ [Event.libusb_get_device_list]
        ++ passedOver before ++ [Event.libusb_get_device_descriptor dev, Event.libusb_open dev])
      (usb.libusb_open (log ++ [Event.libusb_get_device_list] ++ passedOver before
        ++ [Event.libusb_get_device_descriptor dev]) dev).2 0 < 0) :
    discover K usb s log
      = ({ s with m_deviceHandle :=
            (usb.libusb_open (log ++ [Event.libusb_get_device_list] ++ passedOver before
              ++ [Event.libusb_get_device_descriptor dev]) dev).2 },
          log ++ [Event.libusb_get_device_list] ++ passedOver before
          ++ [Event.libusb_get_device_descriptor dev, Event.libusb_open dev,
              Event.libusb_claim_interface
                (usb.libusb_open (log ++ [Event.libusb_get_device_list] ++ passedOver before
                  ++ [Event.libusb_get_device_descriptor dev]) dev).2 0,
              Event.qWarning (Warning.claimInterfaceError (usb.libusb_claim_interface
                (log ++ [Event.libusb_get_device_list] ++ passedOver before
                  ++ [Event.libusb_get_device_descriptor dev, Event.libusb_open dev])
                (usb.libusb_open (log ++ [Event.libusb_get_device_list] ++ passedOver before
                  ++ [Event.libusb_get_device_descriptor dev]) dev).2 0))]
          ++ [Event.libusb_free_device_list]) := by
  have hne : ¬ (0 + before.length = (before ++ dev :: after).length) := by
    simp only [List.length_append, List.length_cons]; omega
  rw [discover_of_list K usb s log _ hlist, findDeviceLoop_pass K usb before _ hbefore,
    findDeviceLoop_claim_failed K usb dev after _ s _ hdev.1 hdev.2 ho hc]
  simp only [hne, if_false]

/-- Full discovery when the first device with a readable matching descriptor opens and
its interface 0 is claimed. -/
theorem discover_claim_ok (K : EmsCartH) (usb : Libusb) (s : EmsCart) (log : List Event)
    (before after : List libusb_device) (dev : libusb_device)
    (hlist : usb.libusb_get_device_list log = DeviceList.devices (before ++ dev :: after))
    (hbefore : ∀ d ∈ before,
      ¬ (d.descriptorResult = 0 ∧ d.idVendor = K.UsbVID ∧ d.idProduct = K.UsbPID))
    (hdev : dev.descriptorResult = 0 ∧ dev.idVendor = K.UsbVID ∧ dev.idProduct = K.UsbPID)
    (ho : (usb.libusb_open (log ++ [Event.libusb_get_device_list] ++ passedOver before
      ++ [Event.libusb_get_device_descriptor dev]) dev).1 = 0)
    (hc : 0 ≤ usb.libusb_claim_interface (log ++ [Event.libusb_get_device_list]
        ++ passedOver before ++ [Event.libusb_get_device_descriptor dev, Event.libusb_open dev])
      (usb.libusb_open (log ++ [Event.libusb_get_device_list] ++ passedOver before
        ++ [Event.libusb_get_device_descriptor dev]) dev).2 0) :
    discover K usb s log
      = (EmsCart.mk
            (usb.libusb_open (log ++ [Event.libusb_get_device_list] ++ passedOver before
              ++ [Event.libusb_get_device_descriptor dev]) dev).2 true,
          log ++ [Event.libusb_get_device_list] ++ passedOver before
          ++ [Event.libusb_get_device_descriptor dev, Event.libusb_open dev,
              Event.libusb_claim_interface
                (usb.libusb_open (log ++ [Event.libusb_get_device_list] ++ passedOver before
                  ++ [Event.libusb_get_device_descriptor dev]) dev).2 0,
              Event.readyChanged true]
          ++ [Event.libusb_free_device_list]) := by
  have hne : ¬ (0 + before.length = (before ++ dev :: after).length) := by
    simp only [List.length_append, List.length_cons]; omega
  rw [discover_of_list K usb s log _ hlist, findDeviceLoop_pass K usb before _ hbefore,
    findDeviceLoop_claim_ok K usb dev after _ s _ hdev.1 hdev.2 ho hc]
  simp only [hne, if_false]

end EmsCart

/-! ## Lemmas on reading the log -/

theorem openedDevices_append (a b : List Event) :
    openedDevices (a ++ b) = openedDevices a ++ openedDevices b := by
  simp [openedDevices, List.filterMap_append]

theorem describedDevices_append (a b : List Event) :
    describedDevices (a ++ b) = describedDevices a ++ describedDevices b := by
  simp [describedDevices, List.filterMap_append]

theorem readySignals_append (a b : List Event) :
    readySignals (a ++ b) = readySignals a ++ readySignals b := by
  simp [readySignals, List.filterMap_append]

theorem errorSignals_append (a b : List Event) :
    errorSignals (a ++ b) = errorSignals a ++ errorSignals b := by
  simp [errorSignals, List.filterMap_append]

theorem openedDevices_openFailureSignals (result : Int) :
    openedDevices (openFailureSignals result) = [] := by
  unfold openFailureSignals
  split_ifs <;> rfl

theorem describedDevices_openFailureSignals (result : Int) :
    describedDevices (openFailureSignals result) = [] := by
  unfold openFailureSignals
  split_ifs <;> rfl

theorem readySignals_openFailureSignals (result : Int) :
    readySignals (openFailureSignals result) = [] := by
  unfold openFailureSignals
  split_ifs <;> rfl

theorem count_deviceNotFound_openFailureSignals (result : Int) :
    (openFailureSignals result).count (Event.qWarning Warning.deviceNotFound) = 0 := by
  unfold openFailureSignals
  split_ifs <;> simp

theorem filter_onNullHandle_openFailureSignals (result : Int) :
    (openFailureSignals result).filter Event.onNullHandle = [] := by
  unfold openFailureSignals
  split_ifs <;> rfl

namespace EmsCart

/-- When the fast path returns, `findDevice` has released and claimed interface 0 on the
stored handle and done nothing else. -/
theorem findDevice_of_fastPath_none (K : EmsCartH) (usb : Libusb) (s : EmsCart)
    (log : List Event) (h : findDeviceFastPath usb s log = none) :
    ready s = true ∧
    findDevice K usb s log
      = (s, log ++ [Event.libusb_release_interface s.m_deviceHandle 0,
          Event.libusb_claim_interface s.m_deviceHandle 0]) := by
  unfold findDeviceFastPath at h
  unfold findDevice
  cases hr : ready s with
  | true =>
    simp only [hr, if_true] at h ⊢
    split_ifs at h ⊢
    simp
  | false =>
    simp [hr] at h

end EmsCart

/-! ## The fast path, failed opening, and the not-found report (claims C11 to C13) -/

namespace EmsCart

/-- C11: in a ready session, if the claim of interface 0 that follows the release
succeeds, `findDevice` returns at once: the members are unchanged, the session is still
ready, and the log has gained the release and the claim only: no enumeration, no
descriptor read, no `libusb_open`, no `readyChanged` and no `error` signal. -/
theorem findDevice_reclaim_success (K : EmsCartH) (usb : Libusb) (s : EmsCart)
    (log : List Event)
    (hready : ready s = true)
    (hclaim : 0 ≤ usb.libusb_claim_interface
      (log ++ [Event.libusb_release_interface s.m_deviceHandle 0]) s.m_deviceHandle 0) :
    findDevice K usb s log
      = (s, log ++ [Event.libusb_release_interface s.m_deviceHandle 0,
          Event.libusb_claim_interface s.m_deviceHandle 0]) ∧
    ready (findDevice K usb s log).1 = true ∧
    (findDevice K usb s log).2.count Event.libusb_get_device_list
      = log.count Event.libusb_get_device_list ∧
    describedDevices (findDevice K usb s log).2 = describedDevices log ∧
    openedDevices (findDevice K usb s log).2 = openedDevices log ∧
    readySignals (findDevice K usb s log).2 = readySignals log ∧
    errorSignals (findDevice K usb s log).2 = errorSignals log := by
  have hfd : findDevice K usb s log
      = (s, log ++ [Event.libusb_release_interface s.m_deviceHandle 0,
          Event.libusb_claim_interface s.m_deviceHandle 0]) := by
    unfold findDevice
    rw [hready]
    simp only [if_true, not_lt.mpr hclaim, if_false, List.append_assoc,
      List.singleton_append]
  rw [hfd]
  refine ⟨rfl, hready, ?_, ?_, ?_, ?_, ?_⟩
  · simp
  · rw [describedDevices_append]; simp [describedDevices]
  · rw [openedDevices_append]; simp [openedDevices]
  · rw [readySignals_append]; simp [readySignals]
  · rw [errorSignals_append]; simp [errorSignals]

/-- Instance of C11: a ready session on handle 7 and a transport that accepts the claim. -/
theorem findDevice_reclaim_success_witness :
    findDevice sampleH usbAccepting ⟨some 7, true⟩ []
      = (⟨some 7, true⟩, [] ++ [Event.libusb_release_interface (some 7) 0,
          Event.libusb_claim_interface (some 7) 0]) ∧
    ready (findDevice sampleH usbAccepting ⟨some 7, true⟩ []).1 = true :=
  ⟨(findDevice_reclaim_success sampleH usbAccepting ⟨some 7, true⟩ [] (by decide)
      (by decide)).1,
    (findDevice_reclaim_success sampleH usbAccepting ⟨some 7, true⟩ [] (by decide)
      (by decide)).2.1⟩

/-- C12, the code at the failing input. The object is constructed and `findDevice` is
called twice. In the first call the programmer opens with handle 7 and the claim of its
interface fails; in the second call `libusb_open` is denied. The handle 7 of the first call
is still stored when the second call returns, where the claim (and the comment at lines
64-67) has a null handle. -/
theorem findDevice_open_failure_stale_handle :
    (run sampleH sampleHost usbStale [] [Call.findDevice]).1 = ⟨some 7, false⟩ ∧
    run sampleH sampleHost usbStale [] [Call.findDevice, Call.findDevice]
      = (⟨some 7, false⟩,
          [Event.libusb_init,
           Event.libusb_get_device_list,
           Event.libusb_get_device_descriptor emsDevice,
           Event.libusb_open emsDevice,
           Event.libusb_claim_interface (some 7) 0,
           Event.qWarning (Warning.claimInterfaceError (-6)),
           Event.libusb_free_device_list,
           Event.libusb_get_device_list,
           Event.libusb_get_device_descriptor emsDevice,
           Event.libusb_open emsDevice,
           Event.qWarning (Warning.openFailed (-3)),
           Event.error ErrorMessage.deviceAccess,
           Event.libusb_free_device_list]) := by
  decide

end EmsCart

namespace EmsCart

/-- The fast path writes no not-found warning. -/
theorem findDeviceFastPath_count_deviceNotFound (usb : Libusb) (s : EmsCart)
    (log : List Event) (s0 : EmsCart) (log0 : List Event)
    (h : findDeviceFastPath usb s log = some (s0, log0)) :
    log0.count (Event.qWarning Warning.deviceNotFound)
      = log.count (Event.qWarning Warning.deviceNotFound) := by
  rcases findDeviceFastPath_some usb s log s0 log0 h with ⟨_, _, hl⟩ | ⟨_, _, hl⟩
  · rw [hl]
  · rw [hl]; simp

/-- Full discovery on a list with a device that has a readable matching descriptor writes
no not-found warning. -/
theorem discover_count_deviceNotFound_of_candidate (K : EmsCartH) (usb : Libusb)
    (s : EmsCart) (log : List Event) (devs : List libusb_device)
    (hlist : usb.libusb_get_device_list log = DeviceList.devices devs)
    (hex : ∃ d ∈ devs,
      d.descriptorResult = 0 ∧ d.idVendor = K.UsbVID ∧ d.idProduct = K.UsbPID) :
    (discover K usb s log).2.count (Event.qWarning Warning.deviceNotFound)
      = log.count (Event.qWarning Warning.deviceNotFound) := by
  obtain ⟨before, dev, after, heq, hbefore, hdev⟩ := exists_first_candidate K devs hex
  rw [heq] at hlist
  by_cases ho : (usb.libusb_open (log ++ [Event.libusb_get_device_list] ++ passedOver before
      ++ [Event.libusb_get_device_descriptor dev]) dev).1 = 0
  · rcases lt_or_le (usb.libusb_claim_interface (log ++ [Event.libusb_get_device_list]
        ++ passedOver before ++ [Event.libusb_get_device_descriptor dev, Event.libusb_open dev])
      (usb.libusb_open (log ++ [Event.libusb_get_device_list] ++ passedOver before
        ++ [Event.libusb_get_device_descriptor dev]) dev).2 0) 0 with hc | hc
    · rw [discover_claim_failed K usb s log before after dev hlist hbefore hdev ho hc]
      simp [List.count_append, count_deviceNotFound_passedOver]
    · rw [discover_claim_ok K usb s log before after dev hlist hbefore hdev ho hc]
      simp [List.count_append, count_deviceNotFound_passedOver]
  · rw [discover_open_failed K usb s log before after dev hlist hbefore hdev ho]
    simp [List.count_append, count_deviceNotFound_passedOver,
      count_deviceNotFound_openFailureSignals]

/-- C13: when `findDevice` gets to full discovery and the enumeration succeeds with the
list `devs`, the warning that the device could not be found is written (once) if and only
if no device of `devs` has a readable descriptor with the compiled-in vendor and product
identifiers, and it is not written if and only if there is such a device, whatever
opening it or claiming its interface gives. -/
theorem findDevice_not_found_iff (K : EmsCartH) (usb : Libusb) (s : EmsCart)
    (log : List Event) (s0 : EmsCart) (log0 : List Event) (devs : List libusb_device)
    (hfull : findDeviceFastPath usb s log = some (s0, log0))
    (hlist : usb.libusb_get_device_list log0 = DeviceList.devices devs) :
    ((findDevice K usb s log).2.count (Event.qWarning Warning.deviceNotFound)
        = log.count (Event.qWarning Warning.deviceNotFound) + 1 ↔
      ¬ ∃ d ∈ devs,
        d.descriptorResult = 0 ∧ d.idVendor = K.UsbVID ∧ d.idProduct = K.UsbPID) ∧
    ((findDevice K usb s log).2.count (Event.qWarning Warning.deviceNotFound)
        = log.count (Event.qWarning Warning.deviceNotFound) ↔
      ∃ d ∈ devs,
        d.descriptorResult = 0 ∧ d.idVendor = K.UsbVID ∧ d.idProduct = K.UsbPID) := by
  have hlog := findDeviceFastPath_count_deviceNotFound usb s log s0 log0 hfull
  rw [findDevice_of_fastPath K usb s log s0 log0 hfull]
  by_cases hex : ∃ d ∈ devs,
      d.descriptorResult = 0 ∧ d.idVendor = K.UsbVID ∧ d.idProduct = K.UsbPID
  · have h := discover_count_deviceNotFound_of_candidate K usb s0 log0 devs hlist hex
    rw [h, hlog]
    simp [hex]
  · have hnone : ∀ d ∈ devs,
        ¬ (d.descriptorResult = 0 ∧ d.idVendor = K.UsbVID ∧ d.idProduct = K.UsbPID) :=
      fun d hd hc => hex ⟨d, hd, hc⟩
    rw [discover_no_candidate K usb s0 log0 devs hlist hnone]
    simp only [List.count_append, count_deviceNotFound_passedOver, hlog]
    simp [hex]

/-- Instance of C13: nothing is attached, the enumerated list is empty, and the warning
is written. -/
theorem findDevice_not_found_iff_witness :
    ((findDevice sampleH usbEmpty ⟨none, false⟩ []).2.count
          (Event.qWarning Warning.deviceNotFound)
        = ([] : List Event).count (Event.qWarning Warning.deviceNotFound) + 1 ↔
      ¬ ∃ d ∈ ([] : List libusb_device),
        d.descriptorResult = 0 ∧ d.idVendor = sampleH.UsbVID
          ∧ d.idProduct = sampleH.UsbPID) ∧
    (findDevice sampleH usbEmpty ⟨none, false⟩ []).2
      = [Event.libusb_get_device_list, Event.qWarning Warning.deviceNotFound,
          Event.libusb_free_device_list] :=
  ⟨(findDevice_not_found_iff sampleH usbEmpty ⟨none, false⟩ [] ⟨none, false⟩ [] []
      (by decide) (by rfl)).1, by decide⟩

end EmsCart

/-! ## Failed claim and the single open (claims C14, C15) -/

namespace EmsCart

/-- In a session where the claimed flag implies a stored handle, full discovery starts
with the claimed flag false. -/
theorem findDeviceFastPath_claimed_false (usb : Libusb) (s : EmsCart) (log : List Event)
    (s0 : EmsCart) (log0 : List Event)
    (hinv : s.m_interfaceClaimed = true → s.m_deviceHandle.isSome = true)
    (h : findDeviceFastPath usb s log = some (s0, log0)) :
    s0.m_interfaceClaimed = false := by
  rcases findDeviceFastPath_some usb s log s0 log0 h with ⟨hr, hs, _⟩ | ⟨_, hs, _⟩
  · rw [hs]
    cases hcl : s.m_interfaceClaimed with
    | false => rfl
    | true =>
      have := hinv hcl
      simp [ready, hcl, this] at hr
  · rw [hs]

/-- The fast path emits no `readyChanged(true)`. -/
theorem findDeviceFastPath_readySignals_true (usb : Libusb) (s : EmsCart)
    (log : List Event) (s0 : EmsCart) (log0 : List Event)
    (h : findDeviceFastPath usb s log = some (s0, log0)) :
    (readySignals log0).count true = (readySignals log).count true := by
  rcases findDeviceFastPath_some usb s log s0 log0 h with ⟨_, _, hl⟩ | ⟨_, _, hl⟩
  · rw [hl]
  · rw [hl, readySignals_append]
    simp [readySignals]

/-- C14: let the session satisfy the invariant that the claimed flag implies a stored
handle, let `findDevice` get to full discovery, and let `dev` be the first enumerated
device with a readable matching descriptor. If `dev` opens with a handle and the claim of
interface 0 on it fails, then on return that handle is stored, the claimed flag is false
and `ready()` is false; after `libusb_open` the log holds the claim, a warning and the
release of the list, so the device is not closed; and no `readyChanged(true)` is
emitted. -/
theorem findDevice_claim_failure (K : EmsCartH) (usb : Libusb) (s : EmsCart)
    (log : List Event) (s0 : EmsCart) (log0 : List Event)
    (before after : List libusb_device) (dev : libusb_device) (handle : Nat)
    (hinv : s.m_interfaceClaimed = true → s.m_deviceHandle.isSome = true)
    (hfull : findDeviceFastPath usb s log = some (s0, log0))
    (hlist : usb.libusb_get_device_list log0 = DeviceList.devices (before ++ dev :: after))
    (hbefore : ∀ d ∈ before,
      ¬ (d.descriptorResult = 0 ∧ d.idVendor = K.UsbVID ∧ d.idProduct = K.UsbPID))
    (hdev : dev.descriptorResult = 0 ∧ dev.idVendor = K.UsbVID ∧ dev.idProduct = K.UsbPID)
    (hopen : usb.libusb_open (log0 ++ [Event.libusb_get_device_list] ++ passedOver before
      ++ [Event.libusb_get_device_descriptor dev]) dev = (0, some handle))
    (hclaim : usb.libusb_claim_interface (log0 ++ [Event.libusb_get_device_list]
        ++ passedOver before ++ [Event.libusb_get_device_descriptor dev, Event.libusb_open dev])
      (some handle) 0 < 0) :
    (findDevice K usb s log).1 = ⟨some handle, false⟩ ∧
    ready (findDevice K usb s log).1 = false ∧
    (findDevice K usb s log).2
      = log0 ++ [Event.libusb_get_device_list] ++ passedOver before
          ++ [Event.libusb_get_device_descriptor dev, Event.libusb_open dev,
              Event.libusb_claim_interface (some handle) 0,
              Event.qWarning (Warning.claimInterfaceError (usb.libusb_claim_interface
                (log0 ++ [Event.libusb_get_device_list] ++ passedOver before
                  ++ [Event.libusb_get_device_descriptor dev, Event.libusb_open dev])
                (some handle) 0)),
              Event.libusb_free_device_list] ∧
    (findDevice K usb s log).2.count (Event.libusb_close (some handle))
      = log0.count (Event.libusb_close (some handle)) ∧
    (readySignals (findDevice K usb s log).2).count true
      = (readySignals log).count true := by
  have hcl := findDeviceFastPath_claimed_false usb s log s0 log0 hinv hfull
  have hrs := findDeviceFastPath_readySignals_true usb s log s0 log0 hfull
  have ho : (usb.libusb_open (log0 ++ [Event.libusb_get_device_list] ++ passedOver before
      ++ [Event.libusb_get_device_descriptor dev]) dev).1 = 0 := by rw [hopen]
  have hc : usb.libusb_claim_interface (log0 ++ [Event.libusb_get_device_list]
        ++ passedOver before ++ [Event.libusb_get_device_descriptor dev, Event.libusb_open dev])
      (usb.libusb_open (log0 ++ [Event.libusb_get_device_list] ++ passedOver before
        ++ [Event.libusb_get_device_descriptor dev]) dev).2 0 < 0 := by
    rw [hopen]; exact hclaim
  have hpc : ∀ l : List libusb_device,
      (passedOver l).count (Event.libusb_close (some handle)) = 0 := by
    intro l
    induction l with
    | nil => rfl
    | cons d ds ih =>
      rw [passedOver, List.count_append, ih]
      split_ifs <;> simp
  rw [findDevice_of_fastPath K usb s log s0 log0 hfull,
    discover_claim_failed K usb s0 log0 before after dev hlist hbefore hdev ho hc, hopen]
  refine ⟨?_, ?_, ?_, ?_, ?_⟩
  · cases s0
    simp only at hcl
    simp [hcl]
  · simp [ready, hcl]
  · simp
  · simp [List.count_append, hpc]
  · rw [← hrs]
    simp only [readySignals_append, readySignals_passedOver, List.count_append]
    simp [readySignals]

/-- Instance of C14: the freshly constructed session, the programmer attached alone, its
interface busy. -/
theorem findDevice_claim_failure_witness :
    (findDevice sampleH usbBusy ⟨none, false⟩ []).1 = ⟨some 7, false⟩ ∧
    ready (findDevice sampleH usbBusy ⟨none, false⟩ []).1 = false ∧
    (findDevice sampleH usbBusy ⟨none, false⟩ []).2
      = [Event.libusb_get_device_list,
          Event.libusb_get_device_descriptor emsDevice, Event.libusb_open emsDevice,
          Event.libusb_claim_interface (some 7) 0,
          Event.qWarning (Warning.claimInterfaceError (-6)),
          Event.libusb_free_device_list] := by
  have h := findDevice_claim_failure sampleH usbBusy ⟨none, false⟩ [] ⟨none, false⟩ []
    [] [] emsDevice 7 (by decide) (by decide) (by rfl) (by simp) (by decide) (by rfl)
    (by decide)
  exact ⟨h.1, h.2.1, h.2.2.1.trans (by decide)⟩

end EmsCart

namespace EmsCart

/-- The fast path reads no descriptor and opens no device. -/
theorem findDeviceFastPath_opened_described (usb : Libusb) (s : EmsCart)
    (log : List Event) (s0 : EmsCart) (log0 : List Event)
    (h : findDeviceFastPath usb s log = some (s0, log0)) :
    openedDevices log0 = openedDevices log ∧
    describedDevices log0 = describedDevices log := by
  rcases findDeviceFastPath_some usb s log s0 log0 h with ⟨_, _, hl⟩ | ⟨_, _, hl⟩
  · rw [hl]; exact ⟨rfl, rfl⟩
  · rw [hl, openedDevices_append, describedDevices_append]
    simp [openedDevices, describedDevices]

/-- Full discovery reads the descriptors up to the first device with a readable matching
descriptor and opens that device, whatever the outcome of opening it. -/
theorem discover_opened_described (K : EmsCartH) (usb : Libusb) (s : EmsCart)
    (log : List Event) (before after : List libusb_device) (dev : libusb_device)
    (hlist : usb.libusb_get_device_list log = DeviceList.devices (before ++ dev :: after))
    (hbefore : ∀ d ∈ before,
      ¬ (d.descriptorResult = 0 ∧ d.idVendor = K.UsbVID ∧ d.idProduct = K.UsbPID))
    (hdev : dev.descriptorResult = 0 ∧ dev.idVendor = K.UsbVID ∧ dev.idProduct = K.UsbPID) :
    openedDevices (discover K usb s log).2 = openedDevices log ++ [dev] ∧
    describedDevices (discover K usb s log).2 = describedDevices log ++ before ++ [dev] := by
  by_cases ho : (usb.libusb_open (log ++ [Event.libusb_get_device_list] ++ passedOver before
      ++ [Event.libusb_get_device_descriptor dev]) dev).1 = 0
  · rcases lt_or_le (usb.libusb_claim_interface (log ++ [Event.libusb_get_device_list]
        ++ passedOver before ++ [Event.libusb_get_device_descriptor dev, Event.libusb_open dev])
      (usb.libusb_open (log ++ [Event.libusb_get_device_list] ++ passedOver before
        ++ [Event.libusb_get_device_descriptor dev]) dev).2 0) 0 with hc | hc
    · rw [discover_claim_failed K usb s log before after dev hlist hbefore hdev ho hc]
      simp only [openedDevices_append, describedDevices_append, openedDevices_passedOver,
        describedDevices_passedOver]
      simp [openedDevices, describedDevices]
    · rw [discover_claim_ok K usb s log before after dev hlist hbefore hdev ho hc]
      simp only [openedDevices_append, describedDevices_append, openedDevices_passedOver,
        describedDevices_passedOver]
      simp [openedDevices, describedDevices]
  · rw [discover_open_failed K usb s log before after dev hlist hbefore hdev ho]
    simp only [openedDevices_append, describedDevices_append, openedDevices_passedOver,
      describedDevices_passedOver, openedDevices_openFailureSignals,
      describedDevices_openFailureSignals]
    simp [openedDevices, describedDevices]

/-- Full discovery on a list without a device that has a readable matching descriptor
reads every descriptor and opens nothing. -/
theorem discover_opened_no_candidate (K : EmsCartH) (usb : Libusb) (s : EmsCart)
    (log : List Event) (devs : List libusb_device)
    (hlist : usb.libusb_get_device_list log = DeviceList.devices devs)
    (hnone : ∀ d ∈ devs,
      ¬ (d.descriptorResult = 0 ∧ d.idVendor = K.UsbVID ∧ d.idProduct = K.UsbPID)) :
    openedDevices (discover K usb s log).2 = openedDevices log ∧
    describedDevices (discover K usb s log).2 = describedDevices log ++ devs := by
  rw [discover_no_candidate K usb s log devs hlist hnone]
  simp only [openedDevices_append, describedDevices_append, openedDevices_passedOver,
    describedDevices_passedOver]
  simp [openedDevices, describedDevices]

/-- C15: a call of `findDevice` opens at most one device, whatever the session, the
transport and the enumerated list. When it gets to full discovery and `dev` is the first
enumerated device with a readable matching descriptor, the descriptors read are those of
the devices `before` it (among them the unreadable ones, which do not stop the scan) and
of `dev`, and `dev` is the device opened, whether opening succeeds or fails: no device
`after` it, matching or not, is inspected or opened. -/
theorem findDevice_opens_at_most_one (K : EmsCartH) (usb : Libusb) (s : EmsCart)
    (log : List Event) :
    (openedDevices (findDevice K usb s log).2 = openedDevices log ∨
      ∃ dev, openedDevices (findDevice K usb s log).2 = openedDevices log ++ [dev]) ∧
    (∀ (s0 : EmsCart) (log0 : List Event) (before after : List libusb_device)
      (dev : libusb_device),
      findDeviceFastPath usb s log = some (s0, log0) →
      usb.libusb_get_device_list log0 = DeviceList.devices (before ++ dev :: after) →
      (∀ d ∈ before,
        ¬ (d.descriptorResult = 0 ∧ d.idVendor = K.UsbVID ∧ d.idProduct = K.UsbPID)) →
      (dev.descriptorResult = 0 ∧ dev.idVendor = K.UsbVID ∧ dev.idProduct = K.UsbPID) →
      openedDevices (findDevice K usb s log).2 = openedDevices log ++ [dev] ∧
      describedDevices (findDevice K usb s log).2
        = describedDevices log ++ before ++ [dev]) := by
  have hB : ∀ (s0 : EmsCart) (log0 : List Event) (before after : List libusb_device)
      (dev : libusb_device),
      findDeviceFastPath usb s log = some (s0, log0) →
      usb.libusb_get_device_list log0 = DeviceList.devices (before ++ dev :: after) →
      (∀ d ∈ before,
        ¬ (d.descriptorResult = 0 ∧ d.idVendor = K.UsbVID ∧ d.idProduct = K.UsbPID)) →
      (dev.descriptorResult = 0 ∧ dev.idVendor = K.UsbVID ∧ dev.idProduct = K.UsbPID) →
      openedDevices (findDevice K usb s log).2 = openedDevices log ++ [dev] ∧
      describedDevices (findDevice K usb s log).2
        = describedDevices log ++ before ++ [dev] := by
    intro s0 log0 before after dev hfull hlist hbefore hdev
    obtain ⟨h1, h2⟩ := findDeviceFastPath_opened_described usb s log s0 log0 hfull
    rw [findDevice_of_fastPath K usb s log s0 log0 hfull, ← h1, ← h2]
    exact discover_opened_described K usb s0 log0 before after dev hlist hbefore hdev
  refine ⟨?_, hB⟩
  cases hfp : findDeviceFastPath usb s log with
  | none =>
    left
    rw [(findDevice_of_fastPath_none K usb s log hfp).2, openedDevices_append]
    simp [openedDevices]
  | some st =>
    obtain ⟨s0, log0⟩ := st
    obtain ⟨h1, _⟩ := findDeviceFastPath_opened_described usb s log s0 log0 hfp
    cases hl : usb.libusb_get_device_list log0 with
    | failed n =>
      left
      rw [findDevice_of_fastPath K usb s log s0 log0 hfp, ← h1]
      unfold discover
      rw [hl]
      simp only [openedDevices_append]
      simp [openedDevices]
    | devices devs =>
      by_cases hex : ∃ d ∈ devs,
          d.descriptorResult = 0 ∧ d.idVendor = K.UsbVID ∧ d.idProduct = K.UsbPID
      · right
        obtain ⟨before, dev, after, heq, hbefore, hdev⟩ := exists_first_candidate K devs hex
        rw [heq] at hl
        exact ⟨dev, (hB s0 log0 before after dev hfp hl hbefore hdev).1⟩
      · left
        have hnone : ∀ d ∈ devs,
            ¬ (d.descriptorResult = 0 ∧ d.idVendor = K.UsbVID ∧ d.idProduct = K.UsbPID) :=
          fun d hd hc => hex ⟨d, hd, hc⟩
        rw [findDevice_of_fastPath K usb s log s0 log0 hfp, ← h1]
        exact (discover_opened_no_candidate K usb s0 log0 devs hl hnone).1

end EmsCart

namespace EmsCart

/-- Instance of C15: an unreadable device, a foreign device and two programmers are
attached and opening is denied. The descriptors of the first three are read, the first
programmer is the only device opened, the second programmer is not touched. -/
theorem findDevice_opens_at_most_one_witness :
    openedDevices (findDevice sampleH usbDenied ⟨none, false⟩ []).2
      = openedDevices [] ++ [emsDevice] ∧
    describedDevices (findDevice sampleH usbDenied ⟨none, false⟩ []).2
      = describedDevices [] ++ [unreadableDevice, otherDevice] ++ [emsDevice] :=
  (findDevice_opens_at_most_one sampleH usbDenied ⟨none, false⟩ []).2 ⟨none, false⟩ []
    [unreadableDevice, otherDevice] [emsDevice2] emsDevice (by decide) (by rfl) (by decide)
    (by decide)

end EmsCart

/-! ## The result of `read` (claim C16) -/

namespace EmsCart

/-- For a target in {ROM, SRAM} with read opcode `cmd` and a count greater than zero and
below `2^31`, `read` returns the empty byte array if and only if the send of the command
frame reported a failure, or it did not and the receive that follows reported one. In
particular a failed receive after an accepted send gives the empty array, and when neither
transfer fails the array returned has `count` bytes, so it is not empty. -/
theorem read_empty_iff_transfer_failed (K : EmsCartH) (host : Host) (usb : Libusb)
    (s : EmsCart) (log : List Event) (src : EmsMemory) (offset count cmd : Nat)
    (hcmd : readCommand K src = some cmd)
    (hpos : 0 < count) (hcount : count < 2147483648) :
    ((read K host usb s log src offset count).1 = [] ↔
      (usb.libusb_bulk_transfer log s.m_deviceHandle K.SendEndpoint
        (createCommandBuffer host cmd offset count) 9).result < 0 ∨
      (0 ≤ (usb.libusb_bulk_transfer log s.m_deviceHandle K.SendEndpoint
          (createCommandBuffer host cmd offset count) 9).result ∧
        (usb.libusb_bulk_transfer
          (log ++ [Event.libusb_bulk_transfer s.m_deviceHandle K.SendEndpoint
            (createCommandBuffer host cmd offset count) 9])
          s.m_deviceHandle K.ReceiveEndpoint (QByteArray.resize host [] count) count).result
            < 0)) ∧
    (0 ≤ (usb.libusb_bulk_transfer log s.m_deviceHandle K.SendEndpoint
        (createCommandBuffer host cmd offset count) 9).result →
      (usb.libusb_bulk_transfer
        (log ++ [Event.libusb_bulk_transfer s.m_deviceHandle K.SendEndpoint
          (createCommandBuffer host cmd offset count) 9])
        s.m_deviceHandle K.ReceiveEndpoint (QByteArray.resize host [] count) count).result
          < 0 →
      (read K host usb s log src offset count).1 = []) ∧
    (0 ≤ (usb.libusb_bulk_transfer log s.m_deviceHandle K.SendEndpoint
        (createCommandBuffer host cmd offset count) 9).result →
      0 ≤ (usb.libusb_bulk_transfer
        (log ++ [Event.libusb_bulk_transfer s.m_deviceHandle K.SendEndpoint
          (createCommandBuffer host cmd offset count) 9])
        s.m_deviceHandle K.ReceiveEndpoint (QByteArray.resize host [] count) count).result →
      (read K host usb s log src offset count).1.length = count ∧
      (read K host usb s log src offset count).1 ≠ []) := by
  have hc : toInt count = (count : Int) := toInt_of_lt count hcount
  have hl : (QByteArray.resize host [] (count : Int)).length = count := by
    rw [length_resize_nil]; simp
  have hlen : ∀ data : List Nat,
      (data.take count ++ (QByteArray.resize host [] (count : Int)).drop
        (data.take count).length).length = count := by
    intro data
    simp only [List.length_append, List.length_drop, List.length_take, hl]
    omega
  have hne : ∀ data : List Nat,
      data.take count ++ (QByteArray.resize host [] (count : Int)).drop
        (data.take count).length ≠ [] := by
    intro data h
    have := hlen data
    rw [h] at this
    simp only [List.length_nil] at this
    omega
  rw [read_of_command K host usb s log src offset count cmd hcmd]
  simp only [hc, hl, Int.toNat_ofNat, Nat.min_self]
  refine ⟨?_, ?_, ?_⟩
  · split_ifs with h1 h2
    · simp [h1]
    · simp [h2, not_lt.mp h1]
    · simp only [hne, false_iff, not_or, not_and, not_lt]
      exact ⟨not_lt.mp h1, fun _ => not_lt.mp h2⟩
  · intro h1 h2
    simp only [not_lt.mpr h1, h2, if_false, if_true]
  · intro h1 h2
    simp only [not_lt.mpr h1, not_lt.mpr h2, if_false]
    exact ⟨hlen _, hne _⟩

/-- Reading two bytes of ROM when the send is accepted and the receive times out gives the
empty array. -/
theorem read_empty_iff_transfer_failed_example :
    (read sampleH sampleHost usbReceiveFails ⟨some 7, true⟩ [] EmsMemory.ROM 0 2).1 = [] :=
  (read_empty_iff_transfer_failed sampleH sampleHost usbReceiveFails ⟨some 7, true⟩ []
    EmsMemory.ROM 0 2 0xff (by decide) (by decide) (by decide)).2.1 (by decide) (by decide)

/-- C16, the code at the failing input. Reading `2^31` bytes of ROM in a ready session
against a transport that accepts both transfers: neither the send nor the receive reports
a failure, and `read` returns the empty byte array, because the count converted to `int`
at lines 137 and 139 is `-2^31` and the buffer is resized to no bytes. The claim has the
empty array only after a reported failure. -/
theorem read_large_count_empty_without_failure :
    (0 : Nat) < 2147483648 ∧ 2147483648 < 4294967296 ∧
    ¬ (usbAccepting.libusb_bulk_transfer [] (some 7) 0x02
      (createCommandBuffer sampleHost 0xff 0 2147483648) 9).result < 0 ∧
    ¬ (usbAccepting.libusb_bulk_transfer
      [Event.libusb_bulk_transfer (some 7) 0x02
        (createCommandBuffer sampleHost 0xff 0 2147483648) 9]
      (some 7) 0x81 [] (-2147483648)).result < 0 ∧
    read sampleH sampleHost usbAccepting ⟨some 7, true⟩ [] EmsMemory.ROM 0 2147483648
      = ([], [Event.libusb_bulk_transfer (some 7) 0x02 [0xff, 0, 0, 0, 0, 0x80, 0, 0, 0] 9,
          Event.libusb_bulk_transfer (some 7) 0x81 [] (-2147483648)]) := by
  decide

end EmsCart

/-! ## Teardown (claim C17) -/

namespace EmsCart

/-- C17: the destructor adds to the log, in this order, the release of interface 0 if the
claimed flag is set, the close of the handle if a handle is stored, and `libusb_exit`;
`libusb_exit` is called exactly once, also when both earlier steps are skipped, and it is
the last call. -/
theorem delete_order (s : EmsCart) (log : List Event) :
    delete s log
      = log ++ (if s.m_interfaceClaimed = true
            then [Event.libusb_release_interface s.m_deviceHandle 0] else [])
          ++ (if s.m_deviceHandle.isSome = true
            then [Event.libusb_close s.m_deviceHandle] else [])
          ++ [Event.libusb_exit] ∧
    (delete s log).count Event.libusb_exit = log.count Event.libusb_exit + 1 ∧
    delete ⟨none, false⟩ log = log ++ [Event.libusb_exit] := by
  refine ⟨?_, ?_, ?_⟩
  · unfold delete
    split_ifs <;> simp
  · unfold delete
    split_ifs <;> simp [List.count_append]
  · rfl

end EmsCart

/-! ## The invariant of the reachable states (claim C18) -/

namespace EmsCart

theorem read_filter_onNullHandle (K : EmsCartH) (host : Host) (usb : Libusb) (s : EmsCart)
    (log : List Event) (src : EmsMemory) (offset count : Nat) :
    (read K host usb s log src offset count).2.filter Event.onNullHandle
      = log.filter Event.onNullHandle := by
  cases hcmd : readCommand K src with
  | none => simp [read, hcmd, Event.onNullHandle]
  | some cmd =>
    rw [read_of_command K host usb s log src offset count cmd hcmd]
    simp only
    split_ifs <;> simp [List.filter_append, Event.onNullHandle]

theorem write_filter_onNullHandle (K : EmsCartH) (host : Host) (usb : Libusb) (s : EmsCart)
    (log : List Event) (dst : EmsMemory) (data : List Nat) (offset count : Nat) :
    (write K host usb s log dst data offset count).2.filter Event.onNullHandle
      = log.filter Event.onNullHandle := by
  cases hcmd : writeCommand K dst with
  | none => simp [write, hcmd, Event.onNullHandle]
  | some cmd =>
    rw [write_of_command K host usb s log dst data offset count cmd hcmd]
    simp [List.filter_append, Event.onNullHandle]

/-- Full discovery keeps the invariant and makes no claim on a null handle, when a
successful `libusb_open` stores a handle. -/
theorem discover_invariant (K : EmsCartH) (usb : Libusb) (s : EmsCart) (log : List Event)
    (hopen : ∀ l dev, (usb.libusb_open l dev).1 = 0 → (usb.libusb_open l dev).2.isSome = true)
    (hinv : s.m_interfaceClaimed = true → s.m_deviceHandle.isSome = true) :
    ((discover K usb s log).1.m_interfaceClaimed = true →
      (discover K usb s log).1.m_deviceHandle.isSome = true) ∧
    (discover K usb s log).2.filter Event.onNullHandle = log.filter Event.onNullHandle := by
  cases hl : usb.libusb_get_device_list log with
  | failed n =>
    unfold discover
    rw [hl]
    exact ⟨hinv, by simp [List.filter_append, Event.onNullHandle]⟩
  | devices devs =>
    by_cases hex : ∃ d ∈ devs,
        d.descriptorResult = 0 ∧ d.idVendor = K.UsbVID ∧ d.idProduct = K.UsbPID
    · obtain ⟨before, dev, after, heq, hbefore, hdev⟩ := exists_first_candidate K devs hex
      rw [heq] at hl
      by_cases ho : (usb.libusb_open (log ++ [Event.libusb_get_device_list]
          ++ passedOver before ++ [Event.libusb_get_device_descriptor dev]) dev).1 = 0
      · obtain ⟨handle, hh⟩ := Option.isSome_iff_exists.mp (hopen _ _ ho)
        rcases lt_or_le (usb.libusb_claim_interface (log ++ [Event.libusb_get_device_list]
            ++ passedOver before
            ++ [Event.libusb_get_device_descriptor dev, Event.libusb_open dev])
          (usb.libusb_open (log ++ [Event.libusb_get_device_list] ++ passedOver before
            ++ [Event.libusb_get_device_descriptor dev]) dev).2 0) 0 with hc | hc
        · rw [discover_claim_failed K usb s log before after dev hl hbefore hdev ho hc, hh]
          refine ⟨fun _ => rfl, ?_⟩
          simp [List.filter_append, filter_onNullHandle_passedOver, Event.onNullHandle]
        · rw [discover_claim_ok K usb s log before after dev hl hbefore hdev ho hc, hh]
          refine ⟨fun _ => rfl, ?_⟩
          simp [List.filter_append, filter_onNullHandle_passedOver, Event.onNullHandle]
      · rw [discover_open_failed K usb s log before after dev hl hbefore hdev ho]
        refine ⟨hinv, ?_⟩
        simp [List.filter_append, filter_onNullHandle_passedOver,
          filter_onNullHandle_openFailureSignals, Event.onNullHandle]
    · have hnone : ∀ d ∈ devs,
          ¬ (d.descriptorResult = 0 ∧ d.idVendor = K.UsbVID ∧ d.idProduct = K.UsbPID) :=
        fun d hd hc => hex ⟨d, hd, hc⟩
      rw [discover_no_candidate K usb s log devs hl hnone]
      refine ⟨hinv, ?_⟩
      simp [List.filter_append, filter_onNullHandle_passedOver, Event.onNullHandle]

/-- `findDevice` keeps the invariant and neither releases nor claims on a null handle. -/
theorem findDevice_invariant (K : EmsCartH) (usb : Libusb) (s : EmsCart) (log : List Event)
    (hopen : ∀ l dev, (usb.libusb_open l dev).1 = 0 → (usb.libusb_open l dev).2.isSome = true)
    (hinv : s.m_interfaceClaimed = true → s.m_deviceHandle.isSome = true) :
    ((findDevice K usb s log).1.m_interfaceClaimed = true →
      (findDevice K usb s log).1.m_deviceHandle.isSome = true) ∧
    (findDevice K usb s log).2.filter Event.onNullHandle = log.filter Event.onNullHandle := by
  cases hfp : findDeviceFastPath usb s log with
  | none =>
    obtain ⟨hr, hfd⟩ := findDevice_of_fastPath_none K usb s log hfp
    rw [hfd]
    refine ⟨hinv, ?_⟩
    simp only [ready, Bool.and_eq_true] at hr
    obtain ⟨handle, hh⟩ := Option.isSome_iff_exists.mp hr.1
    simp [hh, List.filter_append, Event.onNullHandle]
  | some st =>
    obtain ⟨s0, log0⟩ := st
    rw [findDevice_of_fastPath K usb s log s0 log0 hfp]
    rcases findDeviceFastPath_some usb s log s0 log0 hfp with ⟨_, hs, hl⟩ | ⟨hr, hs, hl⟩
    · rw [hs, hl]
      exact discover_invariant K usb s log hopen hinv
    · have h := discover_invariant K usb s0 log0 hopen (by rw [hs]; simp)
      refine ⟨h.1, ?_⟩
      rw [h.2, hl]
      simp only [ready, Bool.and_eq_true] at hr
      obtain ⟨handle, hh⟩ := Option.isSome_iff_exists.mp hr.1
      simp [hh, List.filter_append, Event.onNullHandle]

/-- Every call keeps the invariant and neither releases nor claims on a null handle. -/
theorem call_invariant (K : EmsCartH) (host : Host) (usb : Libusb)
    (st : EmsCart × List Event) (c : Call)
    (hopen : ∀ l dev, (usb.libusb_open l dev).1 = 0 → (usb.libusb_open l dev).2.isSome = true)
    (hinv : st.1.m_interfaceClaimed = true → st.1.m_deviceHandle.isSome = true) :
    ((call K host usb st c).1.m_interfaceClaimed = true →
      (call K host usb st c).1.m_deviceHandle.isSome = true) ∧
    (call K host usb st c).2.filter Event.onNullHandle = st.2.filter Event.onNullHandle := by
  cases c with
  | findDevice => exact findDevice_invariant K usb st.1 st.2 hopen hinv
  | read src offset count =>
    exact ⟨hinv, read_filter_onNullHandle K host usb st.1 st.2 src offset count⟩
  | write dst data offset count =>
    exact ⟨hinv, write_filter_onNullHandle K host usb st.1 st.2 dst data offset count⟩
  | ready => exact ⟨hinv, rfl⟩

/-- A sequence of calls keeps the invariant and neither releases nor claims on a null
handle. -/
theorem foldl_call_invariant (K : EmsCartH) (host : Host) (usb : Libusb) (calls : List Call)
    (st : EmsCart × List Event)
    (hopen : ∀ l dev, (usb.libusb_open l dev).1 = 0 → (usb.libusb_open l dev).2.isSome = true)
    (hinv : st.1.m_interfaceClaimed = true → st.1.m_deviceHandle.isSome = true) :
    ((calls.foldl (call K host usb) st).1.m_interfaceClaimed = true →
      (calls.foldl (call K host usb) st).1.m_deviceHandle.isSome = true) ∧
    (calls.foldl (call K host usb) st).2.filter Event.onNullHandle
      = st.2.filter Event.onNullHandle := by
  induction calls generalizing st with
  | nil => exact ⟨hinv, rfl⟩
  | cons c cs ih =>
    have h := call_invariant K host usb st c hopen hinv
    have h' := ih (call K host usb st c) h.1
    rw [List.foldl_cons]
    exact ⟨h'.1, h'.2.trans h.2⟩

/-- C18: let a successful `libusb_open` store a handle. In the state reached from the
freshly constructed object by any sequence of calls of `findDevice`, `read`, `write` and
`ready`, against any transport, the claimed flag implies that a handle is stored; hence
`ready()` equals the claimed flag; and since construction no release and no claim of an
interface has been made on a null handle, nor does the destructor make one. -/
theorem reachable_invariant (K : EmsCartH) (host : Host) (usb : Libusb) (log : List Event)
    (calls : List Call)
    (hopen : ∀ l dev, (usb.libusb_open l dev).1 = 0 →
      (usb.libusb_open l dev).2.isSome = true) :
    ((run K host usb log calls).1.m_interfaceClaimed = true →
      (run K host usb log calls).1.m_deviceHandle.isSome = true) ∧
    ready (run K host usb log calls).1 = (run K host usb log calls).1.m_interfaceClaimed ∧
    (run K host usb log calls).2.filter Event.onNullHandle
      = log.filter Event.onNullHandle ∧
    (delete (run K host usb log calls).1 (run K host usb log calls).2).filter
        Event.onNullHandle
      = log.filter Event.onNullHandle := by
  have hnew1 : (new usb log).1 = ⟨none, false⟩ := by
    unfold new
    simp only
    split_ifs <;> rfl
  have hnew2 : (new usb log).2.filter Event.onNullHandle = log.filter Event.onNullHandle := by
    unfold new
    simp only
    split_ifs <;> simp [List.filter_append, Event.onNullHandle]
  have h := foldl_call_invariant K host usb calls (new usb log) hopen (by rw [hnew1]; simp)
  rw [hnew2] at h
  unfold run
  refine ⟨h.1, ?_, h.2, ?_⟩
  · cases hcl : (calls.foldl (call K host usb) (new usb log)).1.m_interfaceClaimed with
    | false => simp [ready, hcl]
    | true => simp [ready, hcl, h.1 hcl]
  · rw [← h.2]
    unfold delete
    cases hcl : (calls.foldl (call K host usb) (new usb log)).1.m_interfaceClaimed with
    | false =>
      simp only [Bool.false_eq_true, if_false]
      split_ifs <;> simp [List.filter_append, Event.onNullHandle]
    | true =>
      obtain ⟨handle, hh⟩ := Option.isSome_iff_exists.mp (h.1 hcl)
      simp [hh, List.filter_append, Event.onNullHandle]

/-- Instance of C18: construction, discovery, a read, a write, a query and a second
discovery against a transport that accepts everything. -/
theorem reachable_invariant_witness :
    ((run sampleH sampleHost usbAccepting []
        [Call.findDevice, Call.read EmsMemory.ROM 0 2, Call.write EmsMemory.SRAM [1, 2] 0 2,
          Call.ready, Call.findDevice]).1.m_interfaceClaimed = true →
      (run sampleH sampleHost usbAccepting []
        [Call.findDevice, Call.read EmsMemory.ROM 0 2, Call.write EmsMemory.SRAM [1, 2] 0 2,
          Call.ready, Call.findDevice]).1.m_deviceHandle.isSome = true) ∧
    (run sampleH sampleHost usbAccepting []
        [Call.findDevice, Call.read EmsMemory.ROM 0 2, Call.write EmsMemory.SRAM [1, 2] 0 2,
          Call.ready, Call.findDevice]).1 = ⟨some 7, true⟩ :=
  ⟨(reachable_invariant sampleH sampleHost usbAccepting []
      [Call.findDevice, Call.read EmsMemory.ROM 0 2, Call.write EmsMemory.SRAM [1, 2] 0 2,
        Call.ready, Call.findDevice] (fun _ _ _ => rfl)).1, by decide⟩

end EmsCart
